import Mathlib

/-!
Verification of the geocode-normalization and chart-aggregation core of the
`project_flow` repository (a Django app over French "Valeurs Foncières"
real-estate data).

The Python source is shallowly embedded:

* Python strings become Lean `String` (a structure over `List Char`); the
  handful of Python string methods used by the source (`strip`, `upper`,
  `startswith`, `lstrip('0')`, `zfill`, slicing, `title`) are modelled
  character-by-character below.
* Python `None` becomes `Option`.
* Python `float` and `Decimal` numerics become `ℚ` (exact arithmetic standing
  in for IEEE doubles; every arithmetic step of the embedded code is affine
  interpolation, comparison, or summation, which ℚ performs exactly).
* Django querysets become explicit `List` values of record structures; the
  `values(...).annotate(...)` group-by is modelled as grouping by first
  appearance (the SQL result order of an unordered GROUP BY is unspecified;
  every theorem below is insensitive to that order).  `Count('id')` counts
  rows (the primary key is never null), `Coalesce(Sum(f), 0)` sums the
  non-null values of `f` with `0` for the empty/all-null group.
* Python's stable `list.sort(key=..., reverse=True)` is modelled by
  `List.insertionSort` with the corresponding total preorder, which is
  likewise stable.
-/

namespace DVF

/-! ## Python string primitives -/

/-- Whitespace removed by Python `str.strip()` (ASCII part). -/
def isPySpace (c : Char) : Bool :=
  c.toNat = 32 || c.toNat = 9 || c.toNat = 10 || c.toNat = 13 || c.toNat = 11 || c.toNat = 12

/-- `str.strip()` on the underlying character list. -/
def pyStripList (l : List Char) : List Char :=
  ((l.dropWhile isPySpace).reverse.dropWhile isPySpace).reverse

/-- Python `str.strip()`. -/
def pyStrip (s : String) : String := ⟨pyStripList s.data⟩

/-- Python `str.upper()` (the source only ever feeds it ASCII). -/
def pyUpper (s : String) : String := ⟨s.data.map Char.toUpper⟩

/-- Python `str.startswith` on character lists. -/
def startsWithList : List Char → List Char → Bool
  | [], _ => true
  | _ :: _, [] => false
  | p :: ps, c :: cs => decide (p = c) && startsWithList ps cs

/-- Python `str.startswith`. -/
def pyStartswith (s : String) (pre : String) : Bool := startsWithList pre.data s.data

/-- Python `str.lstrip('0')`. -/
def pyLstripZeros (l : List Char) : List Char := l.dropWhile (fun c => decide (c = '0'))

/-- The Python idiom `s.lstrip('0') or '0'`. -/
def lstripDefault (l : List Char) : List Char :=
  let r := pyLstripZeros l
  if r = [] then ['0'] else r

/-- Python `str.zfill(width)`: left-pad with `'0'` to `width`; a leading
sign character stays in front of the padding. -/
def pyZfillList (l : List Char) (width : Nat) : List Char :=
  if width ≤ l.length then l
  else
    match l with
    | [] => List.replicate width '0'
    | c :: rest =>
      if c = '+' ∨ c = '-' then c :: (List.replicate (width - l.length) '0' ++ rest)
      else List.replicate (width - l.length) '0' ++ (c :: rest)

/-- Python `str.zfill` on `String`. -/
def pyZfill (s : String) (width : Nat) : String := ⟨pyZfillList s.data width⟩

/-- Python `s[:n]`. -/
def pyTake (s : String) (n : Nat) : String := ⟨s.data.take n⟩

/-- Python `s[n:]`. -/
def pyDrop (s : String) (n : Nat) : String := ⟨s.data.drop n⟩

/-! ## `dvf_app/utils.py` -/

/-- Embedding of `utils.split_commune_code`:

```python
def split_commune_code(commune_code):
    code = (commune_code or '').strip().upper()
    if not code:
        return None, None
    if code.startswith(('2A', '2B')):
        dept = code[:2]; rest = code[2:]
    elif code.startswith(('97', '98')) and len(code) >= 4:
        dept = code[:3]; rest = code[3:]
    else:
        dept = code[:2]; rest = code[2:]
    rest = rest.lstrip('0') or '0'
    return dept, rest
```
-/
def split_commune_code (commune_code : Option String) : Option String × Option String :=
  let code := pyUpper (pyStrip (commune_code.getD ""))
  if code.data = [] then (none, none)
  else
    let deptRest :=
      if pyStartswith code "2A" || pyStartswith code "2B" then
        (pyTake code 2, pyDrop code 2)
      else if (pyStartswith code "97" || pyStartswith code "98") && 4 ≤ code.data.length then
        (pyTake code 3, pyDrop code 3)
      else
        (pyTake code 2, pyDrop code 2)
    (some deptRest.1, some ⟨lstripDefault deptRest.2.data⟩)

/-- Embedding of `utils.normalize_commune_code`:

```python
def normalize_commune_code(department_code, commune_code):
    dept = (department_code or '').strip().upper()
    commune = (commune_code or '').strip()
    if not dept or not commune:
        return None
    if dept in {'2A', '2B'}:
        padded_commune = commune.zfill(3)
    elif dept.startswith('97') or dept.startswith('98'):
        padded_commune = commune.zfill(2)
    else:
        padded_commune = commune.zfill(3)
        dept = dept.zfill(2)
    return f"{dept}{padded_commune}"
```
-/
def normalize_commune_code (department_code commune_code : Option String) : Option String :=
  let dept := pyUpper (pyStrip (department_code.getD ""))
  let commune := pyStrip (commune_code.getD "")
  if dept.data = [] ∨ commune.data = [] then none
  else if dept = "2A" ∨ dept = "2B" then
    some ⟨dept.data ++ pyZfillList commune.data 3⟩
  else if pyStartswith dept "97" || pyStartswith dept "98" then
    some ⟨dept.data ++ pyZfillList commune.data 2⟩
  else
    some ⟨pyZfillList dept.data 2 ++ pyZfillList commune.data 3⟩

/-! ## The duplicate normalizer in `dvf_app/views.py` -/

namespace Views

/-- Embedding of `views.normalize_commune_code` (the duplicated call-site
normalizer):

```python
def normalize_commune_code(department_code, commune_code):
    dept = (department_code or "").strip().upper()
    commune = (commune_code or "").strip().upper()
    if not dept or not commune:
        return None
    if len(commune) >= 5:
        return commune
    if dept in {"2A", "2B"}:
        return f"{dept}{commune.zfill(3)}"
    if dept.startswith("97") or dept.startswith("98"):
        return f"{dept}{commune.zfill(2)}"
    return f"{dept.zfill(2)}{commune.zfill(3)}"
```
-/
def normalize_commune_code (department_code commune_code : Option String) : Option String :=
  let dept := pyUpper (pyStrip (department_code.getD ""))
  let commune := pyUpper (pyStrip (commune_code.getD ""))
  if dept.data = [] ∨ commune.data = [] then none
  else if 5 ≤ commune.data.length then some commune
  else if dept = "2A" ∨ dept = "2B" then
    some ⟨dept.data ++ pyZfillList commune.data 3⟩
  else if pyStartswith dept "97" || pyStartswith dept "98" then
    some ⟨dept.data ++ pyZfillList commune.data 2⟩
  else
    some ⟨pyZfillList dept.data 2 ++ pyZfillList commune.data 3⟩

end Views

/-! ## Well-formed commune codes (the three families of the spec) -/

/-- Decimal digit, stated on code points. -/
def isDigitChar (c : Char) : Prop := 48 ≤ c.toNat ∧ c.toNat ≤ 57

instance (c : Char) : Decidable (isDigitChar c) := by unfold isDigitChar; infer_instance

/-- Metropolitan family: two-digit department followed by a three-digit
suffix (five decimal digits in all). -/
def metroCode (c : String) : Prop :=
  c.data.length = 5 ∧ ∀ ch ∈ c.data, isDigitChar ch

/-- Corsican family: `2A`/`2B` followed by a three-digit suffix. -/
def corsicanCode (c : String) : Prop :=
  (c.data.take 2 = ['2', 'A'] ∨ c.data.take 2 = ['2', 'B']) ∧
    c.data.length = 5 ∧ ∀ ch ∈ c.data.drop 2, isDigitChar ch

/-- Overseas family: `97x`/`98x` three-digit department followed by a
two-digit suffix. -/
def overseasCode (c : String) : Prop :=
  (c.data.take 2 = ['9', '7'] ∨ c.data.take 2 = ['9', '8']) ∧
    c.data.length = 5 ∧ ∀ ch ∈ c.data, isDigitChar ch

/-- A well-formed five-character commune code, in any of the three families. -/
def wellFormedCode (c : String) : Prop := metroCode c ∨ corsicanCode c ∨ overseasCode c

/-! ## `charts.py`: percentile and box statistics

Python `float` arithmetic is modelled by exact `ℚ` arithmetic; each step of
the embedded code (sorting, affine interpolation, comparison) is exact on
the rationals. -/

/-- Linear-interpolation tail of `charts._percentile` (its last six lines):

```python
    lower_index = math.floor(position)
    upper_index = math.ceil(position)
    lower = sorted_values[lower_index]
    upper = sorted_values[upper_index]
    if lower_index == upper_index:
        return float(lower)
    weight = position - lower_index
    return float(lower + (upper - lower) * weight)
```

`position` is non-negative at every call, so `Int.toNat` of the floor/ceil
gives the Python integer index. -/
def interpolateAt (sorted_values : List ℚ) (position : ℚ) : ℚ :=
  let lower_index := (⌊position⌋).toNat
  let upper_index := (⌈position⌉).toNat
  let lower := sorted_values.getD lower_index 0
  let upper := sorted_values.getD upper_index 0
  if lower_index = upper_index then lower
  else lower + (upper - lower) * (position - (lower_index : ℚ))

/-- Embedding of `charts._percentile`:

```python
def _percentile(sorted_values, ratio):
    if not sorted_values:
        return 0.0
    if len(sorted_values) == 1:
        return float(sorted_values[0])
    clamped = min(max(ratio, 0.0), 1.0)
    position = (len(sorted_values) - 1) * clamped
    ...  # interpolateAt
```
-/
def percentile (sorted_values : List ℚ) (ratio : ℚ) : ℚ :=
  if sorted_values = [] then 0
  else if sorted_values.length = 1 then sorted_values.headD 0
  else
    let clamped := min (max ratio 0) 1
    let position := ((sorted_values.length : ℚ) - 1) * clamped
    interpolateAt sorted_values position

/-- The dict returned by `charts._compute_box_stats`. -/
structure BoxStats where
  min : ℚ
  q1 : ℚ
  median : ℚ
  q3 : ℚ
  max : ℚ
  whiskerLow : ℚ
  whiskerHigh : ℚ
  outliers : List ℚ
  rawMin : ℚ
  rawMax : ℚ
  count : Nat
deriving DecidableEq, Repr

/-- Embedding of `charts._compute_box_stats`:

```python
def _compute_box_stats(values):
    if not values:
        return None
    ordered = sorted(values)
    q1 = _percentile(ordered, 0.25)
    median = _percentile(ordered, 0.5)
    q3 = _percentile(ordered, 0.75)
    iqr = max(q3 - q1, 0.0)
    lower_candidate = q1 - 1.5 * iqr if iqr else ordered[0]
    upper_candidate = q3 + 1.5 * iqr if iqr else ordered[-1]
    display_min = float(max(ordered[0], lower_candidate))
    display_max = float(min(ordered[-1], upper_candidate))
    if display_min > q1:
        display_min = float(ordered[0])
    if display_max < q3:
        display_max = float(ordered[-1])
    outliers = [float(value) for value in ordered if value < display_min or value > display_max]
    return { ... }
```

`sorted(values)` is modelled by `List.insertionSort (· ≤ ·)` (both are
stable sorts, and on numbers stability is irrelevant). -/
def compute_box_stats (values : List ℚ) : Option BoxStats :=
  if values = [] then none
  else
    let ordered := List.insertionSort (· ≤ ·) values
    let q1 := percentile ordered (1/4)
    let median := percentile ordered (1/2)
    let q3 := percentile ordered (3/4)
    let iqr := max (q3 - q1) 0
    let lower_candidate := if iqr ≠ 0 then q1 - 3/2 * iqr else ordered.headD 0
    let upper_candidate := if iqr ≠ 0 then q3 + 3/2 * iqr else ordered.getLast?.getD 0
    let display_min := max (ordered.headD 0) lower_candidate
    let display_max := min (ordered.getLast?.getD 0) upper_candidate
    let display_min := if q1 < display_min then ordered.headD 0 else display_min
    let display_max := if display_max < q3 then ordered.getLast?.getD 0 else display_max
    let outliers := ordered.filter (fun v => decide (v < display_min) || decide (display_max < v))
    some {
      min := display_min
      q1 := q1
      median := median
      q3 := q3
      max := display_max
      whiskerLow := display_min
      whiskerHigh := display_max
      outliers := outliers
      rawMin := ordered.headD 0
      rawMax := ordered.getLast?.getD 0
      count := ordered.length }

/-! ## Data model (`dvf_app/models.py`)

Django `CharField` columns without `null=True` are non-null strings (blanks
are stored as `''`), so they are plain `String`; columns with `null=True`
are `Option`.  `Commune.department` is a non-nullable foreign key. -/

/-- A calendar date (`models.DateField` value). -/
structure MDate where
  year : ℕ
  month : ℕ
  day : ℕ
deriving DecidableEq, Repr

/-- One `CleanDVFRecord` row, restricted to the columns the chart core
reads. -/
structure CleanDVFRecord where
  date_mutation : Option MDate
  nature_mutation : String
  valeur_fonciere : Option ℚ
  code_departement : String
  code_commune : String
  type_local : String
  surface_reelle_bati : Option ℕ
  surface_terrain : Option ℕ
deriving DecidableEq, Repr

/-- A `Department` row (the columns the core reads). -/
structure Department where
  code : String
  name : String
deriving DecidableEq, Repr

/-- A `Commune` row (the columns the core reads); the foreign key to its
department is non-nullable. -/
structure Commune where
  code_commune : String
  name : String
  department : Department
deriving DecidableEq, Repr

/-- The queryable store the core reads: the three tables. -/
structure Database where
  records : List CleanDVFRecord
  departments : List Department
  communes : List Commune
deriving Repr

/-- Truthiness of Python's `Optional[str]`: neither `None` nor `''`. -/
def pyTruthyStr (s : Option String) : Prop := s.getD "" ≠ ""

instance (s : Option String) : Decidable (pyTruthyStr s) := by
  unfold pyTruthyStr
  infer_instance

/-- First-appearance deduplication, the grouping order used to model an SQL
`GROUP BY` whose result order is unspecified (every theorem below is
insensitive to this order). -/
def dedupFirstAux {α} [DecidableEq α] (seen : List α) : List α → List α
  | [] => []
  | a :: l => if a ∈ seen then dedupFirstAux seen l else a :: dedupFirstAux (a :: seen) l

/-- Distinct values of a list, keeping first appearances in order. -/
def dedupFirst {α} [DecidableEq α] (l : List α) : List α := dedupFirstAux [] l

/-! ## `charts.py` constants and scalar helpers -/

def MAX_TOP_COMMUNES : ℤ := 20

def DEFAULT_TOP_COMMUNES : ℤ := 10

def MAX_TYPE_CATEGORIES : ℕ := 5

/-- `charts._to_float`: `None` becomes `0.0`; a `Decimal` becomes the same
number as a float (exact on our `ℚ` model; the `except` branch of the
source is unreachable for decimal inputs). -/
def to_float : Option ℚ → ℚ
  | none => 0
  | some v => v

/-- ASCII letter test (Python `str.title` word-boundary rule, ASCII part). -/
def isAsciiAlpha (c : Char) : Bool :=
  (65 ≤ c.toNat && c.toNat ≤ 90) || (97 ≤ c.toNat && c.toNat ≤ 122)

/-- Python `str.title()` on the character list: a letter after a non-letter
is upper-cased, a letter after a letter is lower-cased. -/
def pyTitleList : List Char → Bool → List Char
  | [], _ => []
  | c :: cs, prevAlpha =>
    (if isAsciiAlpha c then (if prevAlpha then c.toLower else c.toUpper) else c) ::
      pyTitleList cs (isAsciiAlpha c)

/-- Python `str.title()`. -/
def pyTitle (s : String) : String := ⟨pyTitleList s.data false⟩

/-- Embedding of `charts._clean_type_label`:

```python
def _clean_type_label(value):
    label = (value or '').strip()
    if not label:
        return 'Autre'
    return label.title()
```
-/
def clean_type_label (value : Option String) : String :=
  let label := pyStrip (value.getD "")
  if label.data = [] then "Autre" else pyTitle label

/-! ## `charts._build_top_communes` -/

/-- Per-group transaction count: `Count('id')` counts rows, the primary key
being non-null. -/
def groupCount (qs : List CleanDVFRecord) (k : String × String) : ℕ :=
  (qs.filter (fun r => decide (r.code_departement = k.1) && decide (r.code_commune = k.2))).length

/-- Per-group summed value: `Coalesce(Sum('valeur_fonciere'), 0)` sums the
non-null values, `0` for an all-null or empty group. -/
def groupTotal (qs : List CleanDVFRecord) (k : String × String) : ℚ :=
  ((qs.filter (fun r => decide (r.code_departement = k.1) && decide (r.code_commune = k.2))).map
    (fun r => r.valeur_fonciere.getD 0)).sum

/-- One entry of the top-communes list before ranking (the Python dict). -/
structure TopCommuneItem where
  code : String
  sales_count : ℕ
  total_value : ℚ
  label : String
  department_code : Option String
  is_selected : Bool
deriving DecidableEq, Repr

/-- The dict returned by `_build_top_communes`; each item carries its
1-based rank. -/
structure TopCommunesResult where
  scope_label : String
  items : List (TopCommuneItem × ℕ)
  limit : ℤ
deriving DecidableEq, Repr

/-- Descending-count ordering used by `items.sort(key=..., reverse=True)`. -/
def countGe (a b : TopCommuneItem) : Prop := b.sales_count ≤ a.sales_count

instance : DecidableRel countGe := fun a b => by unfold countGe; infer_instance

instance : IsTotal TopCommuneItem countGe := ⟨fun a b => le_total b.sales_count a.sales_count⟩

instance : IsTrans TopCommuneItem countGe :=
  ⟨fun _ _ _ hab hbc => le_trans hbc hab⟩

/-- The value of `commune_lookup.get(code)`: the Python dict comprehension
over the filtered `Commune` table keeps the last row per code (codes are
unique in the table, so which row wins is immaterial). -/
def communeLookupGet (communes : List Commune) (codes : List String) (code : String) :
    Option Commune :=
  ((communes.filter (fun c => codes.contains c.code_commune)).reverse).find?
    (fun c => decide (c.code_commune = code))

/-- The record set scanned by `_build_top_communes` (its lines 145-148):
all records with a non-empty commune code, restricted to the scope
department when one is set. -/
def topCommuneQs (db : Database) (department_code : Option String) : List CleanDVFRecord :=
  let qs := db.records.filter (fun r => decide (r.code_commune ≠ ""))
  if pyTruthyStr department_code then
    qs.filter (fun r => decide (r.code_departement = department_code.getD ""))
  else qs

/-- The grouped, normalized, labelled item list of `_build_top_communes`
(its lines 154-188), before sorting and ranking. -/
def topCommuneItems (db : Database) (department_code : Option String)
    (selected_commune_code : Option String) : List TopCommuneItem :=
  let qs := topCommuneQs db department_code
  let aggregates := dedupFirst (qs.map (fun r => (r.code_departement, r.code_commune)))
  let baseItems : List (String × ℕ × ℚ) := aggregates.filterMap (fun k =>
    (normalize_commune_code (some k.1) (some k.2)).map
      (fun code => (code, groupCount qs k, groupTotal qs k)))
  let commune_codes := baseItems.map (fun it => it.1)
  let selected_code := pyUpper (pyStrip (selected_commune_code.getD ""))
  baseItems.map (fun it =>
    match communeLookupGet db.communes commune_codes it.1 with
    | some commune =>
      { code := it.1, sales_count := it.2.1, total_value := it.2.2,
        label := commune.name, department_code := some commune.department.code,
        is_selected := decide (it.1 = selected_code) }
    | none =>
      { code := it.1, sales_count := it.2.1, total_value := it.2.2,
        label := it.1, department_code := none,
        is_selected := decide (it.1 = selected_code) })

/-- Embedding of `charts._build_top_communes` (the whole function; the
`GROUP BY` over `(code_departement, code_commune)` is modelled by
first-appearance grouping, and the stable Python sort by
`List.insertionSort`). -/
def build_top_communes (db : Database) (department_code : Option String)
    (selected_commune_code : Option String) (limit : ℤ) : TopCommunesResult :=
  let limit := max 3 (min limit MAX_TOP_COMMUNES)
  let scope_label :=
    if pyTruthyStr department_code then
      match db.departments.find? (fun d => decide (d.code = department_code.getD "")) with
      | some scope => if scope.name ≠ "" then scope.name else "Departement " ++ scope.code
      | none => "Departement " ++ department_code.getD ""
    else "France entiere"
  let items := topCommuneItems db department_code selected_commune_code
  let sorted_items := List.insertionSort countGe items
  let top_items := sorted_items.take limit.toNat
  let selected_entry := sorted_items.find? (fun e => e.is_selected)
  let top_items :=
    match selected_entry with
    | some e =>
      if top_items.contains e then top_items
      else List.insertionSort countGe (top_items ++ [e])
    | none => top_items
  { scope_label := scope_label,
    items := top_items.enum.map (fun p => (p.2, p.1 + 1)),
    limit := limit }

/-! ## `charts._build_time_series` -/

/-- `TruncMonth` key of a date. -/
def truncMonth (d : MDate) : ℕ × ℕ := (d.year, d.month)

/-- Chronological order on `(year, month)` keys (`order_by('month')`). -/
def monthLe (a b : ℕ × ℕ) : Prop := a.1 < b.1 ∨ (a.1 = b.1 ∧ a.2 ≤ b.2)

instance : DecidableRel monthLe := fun a b => by unfold monthLe; infer_instance

instance : IsTotal (ℕ × ℕ) monthLe := ⟨by intro a b; unfold monthLe; omega⟩

instance : IsTrans (ℕ × ℕ) monthLe := ⟨by intro a b c; unfold monthLe; omega⟩

/-- Zero-pad a numeral to two digits (`date.isoformat` month/day field). -/
def pad2 (n : ℕ) : String := if n < 10 then "0" ++ toString n else toString n

/-- Zero-pad a numeral to four digits (`date.isoformat` year field). -/
def pad4 (n : ℕ) : String :=
  if n < 10 then "000" ++ toString n
  else if n < 100 then "00" ++ toString n
  else if n < 1000 then "0" ++ toString n
  else toString n

/-- `month.date().isoformat()` of a truncated month: the first of month. -/
def isoFirstOfMonth (ym : ℕ × ℕ) : String := pad4 ym.1 ++ "-" ++ pad2 ym.2 ++ "-01"

/-- One point of the time series. -/
structure TimePoint where
  month : String
  sales_count : ℕ
  total_value : ℚ
deriving DecidableEq, Repr

/-- Embedding of `charts._build_time_series` (its `points` list): records
with a null mutation date are excluded, the rest are grouped by truncated
month, counted and summed (`Coalesce(Sum, 0)`), and emitted in ascending
month order.  The `month is None` guard of the source is unreachable after
the exclusion and is dropped. -/
def build_time_series (records : List CleanDVFRecord) : List TimePoint :=
  let dated := records.filter (fun r => r.date_mutation.isSome)
  let months := dedupFirst (dated.filterMap (fun r => r.date_mutation.map truncMonth))
  let sortedMonths := List.insertionSort monthLe months
  sortedMonths.map (fun m =>
    { month := isoFirstOfMonth m,
      sales_count := (dated.filter (fun r => r.date_mutation.map truncMonth = some m)).length,
      total_value := ((dated.filter (fun r => r.date_mutation.map truncMonth = some m)).map
        (fun r => r.valeur_fonciere.getD 0)).sum })

/-! ## `charts._build_type_metrics` and `_build_type_filter` -/

/-- Insertion-ordered dict update `d[k] = d.get(k, 0) + v`. -/
def dictAdd (d : List (String × ℕ)) (k : String) (v : ℕ) : List (String × ℕ) :=
  if (d.find? (fun p => decide (p.1 = k))).isSome then
    d.map (fun p => if p.1 = k then (p.1, p.2 + v) else p)
  else d ++ [(k, v)]

/-- Insertion-ordered dict update `d[k] = v` (an existing key keeps its
position, a new key is appended). -/
def dictSet (d : List (String × ℕ)) (k : String) (v : ℕ) : List (String × ℕ) :=
  if (d.find? (fun p => decide (p.1 = k))).isSome then
    d.map (fun p => if p.1 = k then (p.1, v) else p)
  else d ++ [(k, v)]

/-- Descending order on counted pairs (`sorted(..., reverse=True)` by
count; the Python sort is stable, as is `insertionSort`). -/
def sndGe (a b : String × ℕ) : Prop := b.2 ≤ a.2

instance : DecidableRel sndGe := fun a b => by unfold sndGe; infer_instance

instance : IsTotal (String × ℕ) sndGe := ⟨fun a b => le_total b.2 a.2⟩

instance : IsTrans (String × ℕ) sndGe := ⟨fun _ _ _ hab hbc => le_trans hbc hab⟩

/-- Embedding of `charts._build_type_metrics`: group by `type_local`
(non-null in this schema, so the `or ''` of the source is the identity),
count per label, accumulate the full mapping in query order (descending
count), and keep the top `MAX_TYPE_CATEGORIES` labels. -/
def build_type_metrics (records : List CleanDVFRecord) : List String × List (String × ℕ) :=
  let keys := dedupFirst (records.map (fun r => r.type_local))
  let counts := keys.map (fun k => (k, (records.filter (fun r => decide (r.type_local = k))).length))
  let qsRows := List.insertionSort sndGe counts
  let type_totals := qsRows.foldl (fun d row => dictAdd d row.1 row.2) []
  let ordered := List.insertionSort sndGe type_totals
  let top_keys := (ordered.take MAX_TYPE_CATEGORIES).map (fun p => p.1)
  (top_keys, type_totals)

/-- Embedding of `charts._build_type_filter` as a row predicate: `None`
when no clause results (exactly when `type_keys` is empty, since the
`type_local` column is non-null, `__isnull` can never match and the
null-or-empty clause reduces to the empty-string test). -/
def build_type_filter (type_keys : List String) : Option (CleanDVFRecord → Bool) :=
  if type_keys = [] then none
  else some (fun r =>
    (type_keys.filter (fun k => decide (k ≠ ""))).contains r.type_local ||
      (type_keys.contains "" && decide (r.type_local = "")))

/-! ## `charts._build_price_boxplot` and `_build_mutation_stack` -/

/-- The `price_expr` `Case` annotation: value over built surface if
positive, else value over land surface if positive, else SQL `NULL`; a null
value propagates to a null price.  (The database would round the quotient
to two decimals; the model keeps it exact, no claim depends on it.) -/
def price_per_sqm (r : CleanDVFRecord) : Option ℚ :=
  if 0 < r.surface_reelle_bati.getD 0 then
    r.valeur_fonciere.map (fun v => v / (r.surface_reelle_bati.getD 0 : ℚ))
  else if 0 < r.surface_terrain.getD 0 then
    r.valeur_fonciere.map (fun v => v / (r.surface_terrain.getD 0 : ℚ))
  else none

/-- The dict returned by `_build_price_boxplot`. -/
structure PriceBoxplot where
  items : List (String × BoxStats)
  unit : String
deriving DecidableEq, Repr

/-- Embedding of `charts._build_price_boxplot`: records of the top types
with a present, nonzero value and a computable price-per-area contribute a
sample to their type's list (in record order); each type with at least one
sample yields its box stats under its display label, in top-key order. -/
def build_price_boxplot (records : List CleanDVFRecord) (top_type_keys : List String) :
    PriceBoxplot :=
  match build_type_filter top_type_keys with
  | none => { items := [], unit := "EUR/m2" }
  | some f =>
    let qs := ((records.filter f).filter
        (fun r => r.valeur_fonciere.isSome && decide (r.valeur_fonciere.getD 0 ≠ 0))).filterMap
      (fun r => (price_per_sqm r).map (fun p => (r.type_local, p)))
    let qs := qs.filter (fun t => top_type_keys.contains t.1)
    { items := top_type_keys.filterMap (fun key =>
        (compute_box_stats ((qs.filter (fun t => decide (t.1 = key))).map (fun t => t.2))).map
          (fun stats => (clean_type_label (some key), stats))),
      unit := "EUR/m2" }

/-- Blank-normalisation of a mutation nature:
`(value or 'Autre').strip() or 'Autre'`. -/
def cleanNature (s : String) : String :=
  let t := pyStrip s
  if t.data = [] then "Autre" else t

/-- One series of the mutation stack. -/
structure MutationSeries where
  label : String
  data : List ℕ
  total : ℕ
deriving DecidableEq, Repr

/-- The dict returned by `_build_mutation_stack`. -/
structure MutationStack where
  labels : List String
  series : List MutationSeries
deriving DecidableEq, Repr

/-- Embedding of `charts._build_mutation_stack`: cross-tabulate counts by
(type, normalised nature) over the top types; one series per distinct
nature (first appearance over the filtered rows), with a count vector
aligned to the type list; series sorted by descending total (stably). -/
def build_mutation_stack (records : List CleanDVFRecord) (top_type_keys : List String) :
    MutationStack :=
  match build_type_filter top_type_keys with
  | none => { labels := [], series := [] }
  | some f =>
    let type_list := top_type_keys
    let labels := type_list.map (fun k => clean_type_label (some k))
    let qs := records.filter f
    let typedRows := (dedupFirst (qs.map (fun r => (r.type_local, r.nature_mutation)))).filter
      (fun k => type_list.contains k.1)
    let natures := dedupFirst (typedRows.map (fun k => cleanNature k.2))
    let vec (n : String) : List ℕ := type_list.map (fun t =>
      (qs.filter (fun r => decide (r.type_local = t) &&
        decide (cleanNature r.nature_mutation = n))).length)
    let total (n : String) : ℕ :=
      (qs.filter (fun r => type_list.contains r.type_local &&
        decide (cleanNature r.nature_mutation = n))).length
    let sorted := List.insertionSort sndGe (natures.map (fun n => (n, total n)))
    { labels := labels,
      series := sorted.map (fun p => { label := p.1, data := vec p.1, total := p.2 }) }

/-! ## `charts._resolve_selection` and `build_chart_payload` -/

/-- The selection dict produced by `_resolve_selection`. -/
structure Selection where
  level : String
  department : Option Department
  department_code : String
  commune : Option Commune
  records : List CleanDVFRecord
  top_scope_department_code : Option String
  selected_commune_code : String
deriving Repr

/-- Embedding of `charts._resolve_selection`.  `.filter(...).first()` on a
unique column is modelled by `List.find?`; `if commune and
commune.department` always takes the first branch when the commune exists,
the foreign key being non-nullable. -/
def resolve_selection (db : Database) (department_code commune_code : String) : Selection :=
  let department_code := pyUpper (pyStrip department_code)
  let commune_code := pyUpper (pyStrip commune_code)
  if commune_code.data ≠ [] then
    let commune := db.communes.find? (fun c => decide (c.code_commune = commune_code))
    let parts := split_commune_code (some commune_code)
    let records₁ := if pyTruthyStr parts.1 then
        db.records.filter (fun r => decide (r.code_departement = parts.1.getD ""))
      else db.records
    let records₂ := match parts.2 with
      | some commune_part => records₁.filter (fun r => decide (r.code_commune = commune_part))
      | none => []
    let department := match commune with
      | some c => some c.department
      | none => if pyTruthyStr parts.1 then
          db.departments.find? (fun d => decide (d.code = parts.1.getD ""))
        else none
    { level := "commune",
      department := department,
      department_code := match department with
        | some d => d.code
        | none => if pyTruthyStr parts.1 then parts.1.getD "" else department_code,
      commune := commune,
      records := records₂,
      top_scope_department_code := if pyTruthyStr parts.1 then parts.1 else none,
      selected_commune_code := match commune with
        | some c => c.code_commune
        | none => commune_code }
  else if department_code.data ≠ [] then
    { level := "department",
      department := db.departments.find? (fun d => decide (d.code = department_code)),
      department_code := department_code,
      commune := none,
      records := db.records.filter (fun r => decide (r.code_departement = department_code)),
      top_scope_department_code := some department_code,
      selected_commune_code := commune_code }
  else
    { level := "national",
      department := none,
      department_code := department_code,
      commune := none,
      records := db.records,
      top_scope_department_code := none,
      selected_commune_code := commune_code }

/-- The `selection` sub-dict of the payload: `(code, display name)`. -/
structure SelectionOut where
  level : String
  department : Option (String × String)
  commune : Option (String × String)
deriving DecidableEq, Repr

/-- Dictionary lookup `d.get(k)` on an insertion-ordered dict. -/
def listLookup (d : List (String × ℕ)) (k : String) : Option ℕ :=
  (d.find? (fun p => decide (p.1 = k))).map (fun p => p.2)

/-- The `type_totals` dict comprehension of `build_chart_payload`:

```python
{_clean_type_label(key): count
 for key, count in type_totals.items() if key in top_type_keys}
```

iterated in insertion order with `dictSet` (a repeated display key keeps the
value written last). -/
def displayTypeTotals (type_totals : List (String × ℕ)) (top_type_keys : List String) :
    List (String × ℕ) :=
  (type_totals.filter (fun p => top_type_keys.contains p.1)).foldl
    (fun d p => dictSet d (clean_type_label (some p.1)) p.2) []

/-- The full payload of `build_chart_payload`. -/
structure ChartPayload where
  selection : SelectionOut
  top_communes : TopCommunesResult
  time_series : List TimePoint
  price_boxplot : PriceBoxplot
  mutation_stack : MutationStack
  type_totals : List (String × ℕ)
deriving Repr

/-- Embedding of `charts.build_chart_payload`: resolve the selection, run
the five aggregations, and assemble the payload.  The `type_totals` dict
comprehension is the fold of insertion-ordered `dictSet` over the entries
restricted to the top keys, keyed by display label. -/
def build_chart_payload (db : Database) (department_code commune_code : String)
    (top_limit : ℤ) : ChartPayload :=
  let selection := resolve_selection db department_code commune_code
  let records := selection.records
  let metrics := build_type_metrics records
  let department_out : Option (String × String) :=
    match selection.department with
    | some d => some (d.code, if d.name ≠ "" then d.name else "Departement " ++ d.code)
    | none =>
      if selection.department_code ≠ "" then
        some (selection.department_code, "Departement " ++ selection.department_code)
      else none
  { selection :=
      { level := selection.level,
        department := department_out,
        commune := selection.commune.map (fun c => (c.code_commune, c.name)) },
    top_communes := build_top_communes db selection.top_scope_department_code
      (some selection.selected_commune_code) top_limit,
    time_series := build_time_series records,
    price_boxplot := build_price_boxplot records metrics.1,
    mutation_stack := build_mutation_stack records metrics.1,
    type_totals := displayTypeTotals metrics.2 metrics.1 }

/-! ## Concrete scenarios used by the example-based claims -/

/-- A transaction row with every optional column absent, to be specialised
by structure update. -/
def blankRecord : CleanDVFRecord :=
  { date_mutation := none, nature_mutation := "", valeur_fonciere := none,
    code_departement := "", code_commune := "", type_local := "",
    surface_reelle_bati := none, surface_terrain := none }

/-- Three communes in department 75 with 10, 7 and 3 sales respectively
(the spec's top-commune scenario: A = 75001, B = 75002, C = 75003). -/
def threeCommuneDb : Database :=
  { records :=
      List.replicate 10 { blankRecord with code_departement := "75", code_commune := "1" } ++
      List.replicate 7 { blankRecord with code_departement := "75", code_commune := "2" } ++
      List.replicate 3 { blankRecord with code_departement := "75", code_commune := "3" },
    departments := [],
    communes := [] }

/-- Two same-month transactions: 2024-01-05 worth 100000 and 2024-01-20
worth 50000 (the spec's time-series scenario). -/
def januaryDb : List CleanDVFRecord :=
  [{ blankRecord with date_mutation := some ⟨2024, 1, 5⟩, valeur_fonciere := some 100000 },
   { blankRecord with date_mutation := some ⟨2024, 1, 20⟩, valeur_fonciere := some 50000 }]

/-- Five sales whose raw type labels `maison` and `MAISON` differ but share
the display form `Maison` (the type-totals collision scenario). -/
def mixedCaseTypeDb : Database :=
  { records :=
      List.replicate 3 { blankRecord with type_local := "maison" } ++
      List.replicate 2 { blankRecord with type_local := "MAISON" },
    departments := [],
    communes := [] }

/-! ## Character-level facts -/

lemma isPySpace_eq_false_of_digit {c : Char} (h : isDigitChar c) : isPySpace c = false := by
  obtain ⟨h1, h2⟩ := h
  simp only [isPySpace, Bool.or_eq_false_iff, decide_eq_false_iff_not]
  omega

lemma toUpper_eq_self_of_digit {c : Char} (h : isDigitChar c) : c.toUpper = c := by
  obtain ⟨h1, h2⟩ := h
  unfold Char.toUpper
  rw [if_neg]
  omega

lemma digit_ne_of_upperAlpha {c x : Char} (hc : isDigitChar c) (hx : 65 ≤ x.toNat ∧ x.toNat ≤ 90) :
    ¬(x = c) := by
  rintro rfl
  obtain ⟨h1, h2⟩ := hc
  omega

lemma digit_not_sign {c : Char} (h : isDigitChar c) : ¬(c = '+' ∨ c = '-') := by
  rintro (rfl | rfl) <;> exact absurd h (by decide)

/-! ## String-level helper lemmas -/

lemma dropWhile_eq_self_of_forall {α} {p : α → Bool} {l : List α}
    (h : ∀ x ∈ l, p x = false) : l.dropWhile p = l := by
  cases l with
  | nil => rfl
  | cons a l => simp [List.dropWhile_cons, h a (by simp)]

lemma pyStripList_eq_self {l : List Char} (h : ∀ c ∈ l, isPySpace c = false) :
    pyStripList l = l := by
  unfold pyStripList
  rw [dropWhile_eq_self_of_forall h,
    dropWhile_eq_self_of_forall (fun c hc => h c (List.mem_reverse.mp hc)),
    List.reverse_reverse]

lemma pyUpperStrip_eq_self {l : List Char}
    (hs : ∀ c ∈ l, isPySpace c = false) (hu : ∀ c ∈ l, c.toUpper = c) :
    pyUpper (pyStrip ⟨l⟩) = ⟨l⟩ := by
  unfold pyUpper pyStrip
  simp only [pyStripList_eq_self hs]
  congr 1
  calc l.map Char.toUpper = l.map id := List.map_congr_left hu
    _ = l := l.map_id

lemma pyUpperStrip_eq_self_of_digit {l : List Char} (h : ∀ c ∈ l, isDigitChar c) :
    pyUpper (pyStrip ⟨l⟩) = ⟨l⟩ :=
  pyUpperStrip_eq_self (fun c hc => isPySpace_eq_false_of_digit (h c hc))
    (fun c hc => toUpper_eq_self_of_digit (h c hc))

lemma pyStrip_eq_self_of_digit {l : List Char} (h : ∀ c ∈ l, isDigitChar c) :
    pyStrip ⟨l⟩ = ⟨l⟩ := by
  unfold pyStrip
  simp only [pyStripList_eq_self (fun c hc => isPySpace_eq_false_of_digit (h c hc))]

lemma mem_lstripDefault_digit {l : List Char} (h : ∀ c ∈ l, isDigitChar c) :
    ∀ c ∈ lstripDefault l, isDigitChar c := by
  intro c hc
  unfold lstripDefault at hc
  by_cases hnil : pyLstripZeros l = []
  · simp [hnil] at hc
    subst hc
    decide
  · rw [if_neg hnil] at hc
    exact h c ((List.dropWhile_sublist _).mem hc)

lemma lstripDefault_ne_nil (l : List Char) : lstripDefault l ≠ [] := by
  unfold lstripDefault
  by_cases hnil : pyLstripZeros l = [] <;> simp [hnil]

/-! ## Zero-fill recovery for the round trip -/

lemma pyZfill_lstripDefault_three {d e f : Char}
    (hd : isDigitChar d) (he : isDigitChar e) (hf : isDigitChar f) :
    pyZfillList (lstripDefault [d, e, f]) 3 = [d, e, f] := by
  by_cases hd0 : d = '0'
  · subst hd0
    by_cases he0 : e = '0'
    · subst he0
      by_cases hf0 : f = '0'
      · subst hf0
        decide
      · simp [lstripDefault, pyLstripZeros, pyZfillList, hf0, digit_not_sign hf]
    · simp [lstripDefault, pyLstripZeros, pyZfillList, he0, digit_not_sign he]
  · simp [lstripDefault, pyLstripZeros, pyZfillList, hd0]

lemma pyZfill_lstripDefault_two {e f : Char}
    (he : isDigitChar e) (hf : isDigitChar f) :
    pyZfillList (lstripDefault [e, f]) 2 = [e, f] := by
  by_cases he0 : e = '0'
  · subst he0
    by_cases hf0 : f = '0'
    · subst hf0
      decide
    · simp [lstripDefault, pyLstripZeros, pyZfillList, hf0, digit_not_sign hf]
  · simp [lstripDefault, pyLstripZeros, pyZfillList, he0]

lemma length_eq_five_exists {α} {l : List α} (h : l.length = 5) :
    ∃ a b d e f, l = [a, b, d, e, f] := by
  rcases l with _ | ⟨a, _ | ⟨b, _ | ⟨d, _ | ⟨e, _ | ⟨f, _ | ⟨g, t⟩⟩⟩⟩⟩⟩ <;>
    simp_all

lemma mkString_ne_of_ne {l₁ l₂ : List Char} (h : l₁ ≠ l₂) : (⟨l₁⟩ : String) ≠ ⟨l₂⟩ := by
  intro hs
  exact h (congrArg String.data hs)

/-- Re-normalizing a split metropolitan-shaped code (two-character numeric
department) reproduces the five digits. -/
lemma normalize_dept2_digits {a b d e f : Char}
    (ha : isDigitChar a) (hb : isDigitChar b) (hd : isDigitChar d)
    (he : isDigitChar e) (hf : isDigitChar f)
    (h97 : ¬('9' = a ∧ '7' = b)) (h98 : ¬('9' = a ∧ '8' = b)) :
    normalize_commune_code (some ⟨[a, b]⟩) (some ⟨lstripDefault [d, e, f]⟩) =
      some ⟨[a, b, d, e, f]⟩ := by
  have hdept : ∀ c ∈ [a, b], isDigitChar c := by
    intro c hc
    simp only [List.mem_cons, List.not_mem_nil, or_false] at hc
    rcases hc with rfl | rfl
    exacts [ha, hb]
  have hsuf : ∀ c ∈ lstripDefault [d, e, f], isDigitChar c := by
    refine mem_lstripDefault_digit ?_
    intro c hc
    simp only [List.mem_cons, List.not_mem_nil, or_false] at hc
    rcases hc with rfl | rfl | rfl
    exacts [hd, he, hf]
  unfold normalize_commune_code
  simp only [Option.getD_some]
  simp only [pyUpperStrip_eq_self_of_digit hdept, pyStrip_eq_self_of_digit hsuf]
  rw [if_neg, if_neg, if_neg]
  · rw [pyZfill_lstripDefault_three hd he hf]
    simp [pyZfillList]
  · simp only [pyStartswith, startsWithList, Bool.or_eq_true, Bool.and_eq_true,
      decide_eq_true_eq, not_or]
    constructor
    · rintro ⟨h9, h7, -⟩
      exact h97 ⟨h9, h7⟩
    · rintro ⟨h9, h8, -⟩
      exact h98 ⟨h9, h8⟩
  · rintro (hs | hs)
    · have hl := congrArg String.data hs
      simp only [List.cons.injEq, and_true] at hl
      exact absurd (hl.2 ▸ hb) (by decide : ¬ isDigitChar 'A')
    · have hl := congrArg String.data hs
      simp only [List.cons.injEq, and_true] at hl
      exact absurd (hl.2 ▸ hb) (by decide : ¬ isDigitChar 'B')
  · rintro (hs | hs)
    · simp at hs
    · exact lstripDefault_ne_nil _ hs

/-- Re-normalizing a split overseas-shaped code (three-character department
starting `97`/`98`) reproduces the five digits. -/
lemma normalize_dept3_digits {y d e f : Char}
    (hy : y = '7' ∨ y = '8') (hd : isDigitChar d) (he : isDigitChar e) (hf : isDigitChar f) :
    normalize_commune_code (some ⟨['9', y, d]⟩) (some ⟨lstripDefault [e, f]⟩) =
      some ⟨['9', y, d, e, f]⟩ := by
  have hsuf : ∀ c ∈ lstripDefault [e, f], isDigitChar c := by
    refine mem_lstripDefault_digit ?_
    intro c hc
    simp only [List.mem_cons, List.not_mem_nil, or_false] at hc
    rcases hc with rfl | rfl
    exacts [he, hf]
  rcases hy with rfl | rfl <;>
  · unfold normalize_commune_code
    simp only [Option.getD_some]
    rw [pyUpperStrip_eq_self_of_digit (by
      intro c hc
      simp only [List.mem_cons, List.not_mem_nil, or_false] at hc
      rcases hc with rfl | rfl | rfl
      · exact (by decide)
      · exact (by decide)
      · exact hd), pyStrip_eq_self_of_digit hsuf]
    rw [if_neg, if_neg, if_pos]
    · rw [pyZfill_lstripDefault_two he hf]
      rfl
    · simp [pyStartswith, startsWithList]
    · rintro (hs | hs) <;>
        exact absurd (congrArg String.data hs) (by simp)
    · rintro (hs | hs)
      · simp at hs
      · exact lstripDefault_ne_nil _ hs

/-- The round trip `normalize(*split(c))` on a metropolitan-shaped code. -/
lemma roundTrip_metro {c : String} (h : metroCode c) :
    normalize_commune_code (split_commune_code (some c)).1 (split_commune_code (some c)).2 =
      some c := by
  obtain ⟨l⟩ := c
  obtain ⟨len5, hdig⟩ := h
  obtain ⟨a, b, d, e, f, rfl⟩ := length_eq_five_exists len5
  have ha : isDigitChar a := hdig a (by simp)
  have hb : isDigitChar b := hdig b (by simp)
  have hd : isDigitChar d := hdig d (by simp)
  have he : isDigitChar e := hdig e (by simp)
  have hf : isDigitChar f := hdig f (by simp)
  have hbA : ¬('A' = b) := digit_ne_of_upperAlpha hb (by decide)
  have hbB : ¬('B' = b) := digit_ne_of_upperAlpha hb (by decide)
  unfold split_commune_code
  simp only [Option.getD_some]
  simp only [pyUpperStrip_eq_self_of_digit hdig]
  rw [if_neg (by simp)]
  have h2AB : (pyStartswith ⟨[a, b, d, e, f]⟩ "2A" || pyStartswith ⟨[a, b, d, e, f]⟩ "2B") =
      false := by
    rw [pyStartswith, pyStartswith, show ("2A" : String).data = ['2', 'A'] from rfl,
      show ("2B" : String).data = ['2', 'B'] from rfl]
    simp [startsWithList, hbA, hbB]
  rw [if_neg (by rw [h2AB]; exact Bool.false_ne_true)]
  by_cases h97 : '9' = a ∧ '7' = b
  · obtain ⟨h9, h7⟩ := h97
    subst h9
    subst h7
    rw [if_pos (by simp [pyStartswith, startsWithList])]
    exact normalize_dept3_digits (Or.inl rfl) hd he hf
  · by_cases h98 : '9' = a ∧ '8' = b
    · obtain ⟨h9, h8⟩ := h98
      subst h9
      subst h8
      rw [if_pos (by simp [pyStartswith, startsWithList])]
      exact normalize_dept3_digits (Or.inr rfl) hd he hf
    · rw [if_neg]
      · exact normalize_dept2_digits ha hb hd he hf h97 h98
      · simp only [pyStartswith, startsWithList, Bool.and_eq_true, Bool.or_eq_true,
          decide_eq_true_eq, and_true, List.length_cons, List.length_nil]
        tauto

/-- Characters left unchanged by `strip`/`upper`: digits and upper-case
basic latin letters. -/
def cleanChar (c : Char) : Prop := isDigitChar c ∨ (65 ≤ c.toNat ∧ c.toNat ≤ 90)

lemma isPySpace_eq_false_of_clean {c : Char} (h : cleanChar c) : isPySpace c = false := by
  rcases h with h | h
  · exact isPySpace_eq_false_of_digit h
  · obtain ⟨h1, h2⟩ := h
    simp only [isPySpace, Bool.or_eq_false_iff, decide_eq_false_iff_not]
    omega

lemma toUpper_eq_self_of_clean {c : Char} (h : cleanChar c) : c.toUpper = c := by
  rcases h with h | h
  · exact toUpper_eq_self_of_digit h
  · obtain ⟨h1, h2⟩ := h
    unfold Char.toUpper
    rw [if_neg]
    omega

lemma pyUpperStrip_eq_self_of_clean {l : List Char} (h : ∀ c ∈ l, cleanChar c) :
    pyUpper (pyStrip ⟨l⟩) = ⟨l⟩ :=
  pyUpperStrip_eq_self (fun c hc => isPySpace_eq_false_of_clean (h c hc))
    (fun c hc => toUpper_eq_self_of_clean (h c hc))

/-- The round trip `normalize(*split(c))` on a Corsican code. -/
lemma roundTrip_corsican {c : String} (h : corsicanCode c) :
    normalize_commune_code (split_commune_code (some c)).1 (split_commune_code (some c)).2 =
      some c := by
  obtain ⟨l⟩ := c
  obtain ⟨htake, len5, hdig⟩ := h
  obtain ⟨a, b, d, e, f, rfl⟩ := length_eq_five_exists len5
  have hd : isDigitChar d := hdig d (by simp)
  have he : isDigitChar e := hdig e (by simp)
  have hf : isDigitChar f := hdig f (by simp)
  have hsuf : ∀ ch ∈ lstripDefault [d, e, f], isDigitChar ch := by
    refine mem_lstripDefault_digit ?_
    intro ch hc
    simp only [List.mem_cons, List.not_mem_nil, or_false] at hc
    rcases hc with rfl | rfl | rfl
    exacts [hd, he, hf]
  have hstrip := pyStrip_eq_self_of_digit hsuf
  rcases htake with htake | htake
  · simp only [List.take, List.cons.injEq, and_true] at htake
    obtain ⟨rfl, rfl⟩ := htake
    have hclean : ∀ ch ∈ ['2', 'A', d, e, f], cleanChar ch := by
      intro ch hc
      simp only [List.mem_cons, List.not_mem_nil, or_false] at hc
      rcases hc with rfl | rfl | rfl | rfl | rfl
      exacts [Or.inl (by decide), Or.inr (by decide), Or.inl hd, Or.inl he, Or.inl hf]
    unfold split_commune_code
    simp only [Option.getD_some]
    simp only [pyUpperStrip_eq_self_of_clean hclean]
    rw [if_neg (by simp)]
    rw [if_pos (by simp [pyStartswith, startsWithList])]
    show normalize_commune_code (some ⟨['2', 'A']⟩) (some ⟨lstripDefault [d, e, f]⟩) =
      some ⟨['2', 'A', d, e, f]⟩
    unfold normalize_commune_code
    simp only [Option.getD_some]
    rw [show pyUpper (pyStrip ⟨['2', 'A']⟩) = ⟨['2', 'A']⟩ from by decide, hstrip]
    rw [if_neg, if_pos (Or.inl (by decide))]
    · rw [pyZfill_lstripDefault_three hd he hf]
      rfl
    · rintro (hs | hs)
      · simp at hs
      · exact lstripDefault_ne_nil _ hs
  · simp only [List.take, List.cons.injEq, and_true] at htake
    obtain ⟨rfl, rfl⟩ := htake
    have hclean : ∀ ch ∈ ['2', 'B', d, e, f], cleanChar ch := by
      intro ch hc
      simp only [List.mem_cons, List.not_mem_nil, or_false] at hc
      rcases hc with rfl | rfl | rfl | rfl | rfl
      exacts [Or.inl (by decide), Or.inr (by decide), Or.inl hd, Or.inl he, Or.inl hf]
    unfold split_commune_code
    simp only [Option.getD_some]
    simp only [pyUpperStrip_eq_self_of_clean hclean]
    rw [if_neg (by simp)]
    rw [if_pos (by simp [pyStartswith, startsWithList])]
    show normalize_commune_code (some ⟨['2', 'B']⟩) (some ⟨lstripDefault [d, e, f]⟩) =
      some ⟨['2', 'B', d, e, f]⟩
    unfold normalize_commune_code
    simp only [Option.getD_some]
    rw [show pyUpper (pyStrip ⟨['2', 'B']⟩) = ⟨['2', 'B']⟩ from by decide, hstrip]
    rw [if_neg, if_pos (Or.inr (by decide))]
    · rw [pyZfill_lstripDefault_three hd he hf]
      rfl
    · rintro (hs | hs)
      · simp at hs
      · exact lstripDefault_ne_nil _ hs

instance (c : String) : Decidable (wellFormedCode c) := by
  unfold wellFormedCode metroCode corsicanCode overseasCode
  infer_instance

/-- C1: for every well-formed 5-character commune code in the three families
(metropolitan 2-digit department + 3-digit suffix, Corsican `2A`/`2B` +
3-digit suffix, overseas `97x`/`98x` + 2-digit suffix),
`normalize_commune_code` applied to the pair returned by
`split_commune_code` reproduces the code exactly; the leading-zero loss in
the suffix is already applied by split and re-padded by normalize. -/
theorem normalize_split_roundTrip (c : String) (h : wellFormedCode c) :
    normalize_commune_code (split_commune_code (some c)).1 (split_commune_code (some c)).2 =
      some c := by
  rcases h with h | h | h
  · exact roundTrip_metro h
  · exact roundTrip_corsican h
  · exact roundTrip_metro ⟨h.2.1, h.2.2⟩

/-- Witness for C1 at the three codes named by the spec:
`75056 -> (75, 56) -> 75056`, `2A004 -> (2A, 4) -> 2A004`,
`97123 -> (971, 23) -> 97123`. -/
theorem normalize_split_roundTrip_witness :
    wellFormedCode "75056" ∧ wellFormedCode "2A004" ∧ wellFormedCode "97123" ∧
      normalize_commune_code (split_commune_code (some "75056")).1
          (split_commune_code (some "75056")).2 = some "75056" ∧
      normalize_commune_code (split_commune_code (some "2A004")).1
          (split_commune_code (some "2A004")).2 = some "2A004" ∧
      normalize_commune_code (split_commune_code (some "97123")).1
          (split_commune_code (some "97123")).2 = some "97123" :=
  ⟨by decide, by decide, by decide,
    normalize_split_roundTrip "75056" (by decide),
    normalize_split_roundTrip "2A004" (by decide),
    normalize_split_roundTrip "97123" (by decide)⟩

/-- C6 counterexample: the normalizer in `utils.py` and its duplicate in
`views.py` are not behaviourally equivalent.  On the input pair
`('75', '75056')` the views version returns the suffix unchanged (its
`len(commune) >= 5` short-circuit) while the utils version concatenates,
giving `'7575056'`. -/
theorem views_normalize_ne_utils_counterexample :
    Views.normalize_commune_code (some "75") (some "75056") = some "75056" ∧
      normalize_commune_code (some "75") (some "75056") = some "7575056" ∧
      Views.normalize_commune_code (some "75") (some "75056") ≠
        normalize_commune_code (some "75") (some "75056") :=
  ⟨by decide, by decide, by decide⟩

/-- C6 (amended): the two normalizers agree on every input whose trimmed
commune suffix is shorter than five characters and is unchanged by
uppercasing (the views duplicate additionally uppercases the suffix and
returns a suffix of length ≥ 5 unchanged; on such inputs they diverge). -/
theorem views_normalize_eq_utils_of_short_upper (department_code commune_code : Option String)
    (hlen : (pyStrip (commune_code.getD "")).data.length < 5)
    (hup : pyUpper (pyStrip (commune_code.getD "")) = pyStrip (commune_code.getD "")) :
    Views.normalize_commune_code department_code commune_code =
      normalize_commune_code department_code commune_code := by
  unfold Views.normalize_commune_code normalize_commune_code
  rw [hup]
  by_cases h0 : (pyUpper (pyStrip (department_code.getD ""))).data = [] ∨
      (pyStrip (commune_code.getD "")).data = []
  · rw [if_pos h0, if_pos h0]
  · rw [if_neg h0, if_neg h0, if_neg (by omega)]

/-- Witness for the amended C6 at `('75', '56')`. -/
theorem views_normalize_eq_utils_witness :
    (pyStrip ((some "56").getD "")).data.length < 5 ∧
      pyUpper (pyStrip ((some "56").getD "")) = pyStrip ((some "56").getD "") ∧
      Views.normalize_commune_code (some "75") (some "56") =
        normalize_commune_code (some "75") (some "56") :=
  ⟨by decide, by decide,
    views_normalize_eq_utils_of_short_upper (some "75") (some "56") (by decide) (by decide)⟩

/-! ## Order facts about `interpolateAt` and `percentile` -/

lemma headD_eq_getD (l : List ℚ) : l.headD 0 = l.getD 0 0 := by
  cases l <;> rfl

lemma getLastD_eq_getD {l : List ℚ} (h : l ≠ []) :
    l.getLast?.getD 0 = l.getD (l.length - 1) 0 := by
  rcases l with _ | ⟨a, t⟩
  · simp at h
  · rw [List.getLast?_eq_getElem?, List.getD, List.get?_eq_getElem?]

lemma sorted_getD_mono {l : List ℚ} (hs : l.Sorted (· ≤ ·)) {i j : ℕ}
    (hij : i ≤ j) (hj : j < l.length) : l.getD i 0 ≤ l.getD j 0 := by
  rw [List.getD_eq_getElem _ _ (lt_of_le_of_lt hij hj), List.getD_eq_getElem _ _ hj]
  have h := hs.rel_get_of_le (show (⟨i, lt_of_le_of_lt hij hj⟩ : Fin l.length) ≤ ⟨j, hj⟩ from hij)
  simpa [List.get_eq_getElem] using h

lemma interpolateAt_between {l : List ℚ} (hs : l.Sorted (· ≤ ·)) {p : ℚ}
    (hp : 0 ≤ p) (hpn : p ≤ (l.length : ℚ) - 1) :
    l.getD (⌊p⌋).toNat 0 ≤ interpolateAt l p ∧ interpolateAt l p ≤ l.getD (⌈p⌉).toNat 0 := by
  have hfl0 : (0 : ℤ) ≤ ⌊p⌋ := Int.floor_nonneg.mpr hp
  have hce_le : ⌈p⌉ ≤ (l.length : ℤ) - 1 := by
    rw [Int.ceil_le]
    push_cast
    exact hpn
  have hflce : ⌊p⌋ ≤ ⌈p⌉ := Int.floor_le_ceil p
  have hui_lt : (⌈p⌉).toNat < l.length := by omega
  have hcast : (((⌊p⌋).toNat : ℕ) : ℚ) = ((⌊p⌋ : ℤ) : ℚ) := by
    rw [← Int.cast_natCast, Int.toNat_of_nonneg hfl0]
  unfold interpolateAt
  by_cases he : (⌊p⌋).toNat = (⌈p⌉).toNat
  · rw [if_pos he]
    constructor
    · exact le_refl _
    · rw [he]
  · rw [if_neg he]
    have hlu : l.getD (⌊p⌋).toNat 0 ≤ l.getD (⌈p⌉).toNat 0 :=
      sorted_getD_mono hs (by omega) hui_lt
    have hw0 : 0 ≤ p - (((⌊p⌋).toNat : ℕ) : ℚ) := by
      rw [hcast]
      linarith [Int.floor_le p]
    have hw1 : p - (((⌊p⌋).toNat : ℕ) : ℚ) ≤ 1 := by
      rw [hcast]
      have h1 : ⌈p⌉ ≤ ⌊p⌋ + 1 := Int.ceil_le_floor_add_one p
      have h2 : p ≤ ((⌈p⌉ : ℤ) : ℚ) := Int.le_ceil p
      have h3 : ((⌈p⌉ : ℤ) : ℚ) ≤ ((⌊p⌋ : ℤ) : ℚ) + 1 := by
        exact_mod_cast h1
      linarith
    constructor
    · have h := mul_nonneg (sub_nonneg.mpr hlu) hw0
      linarith
    · have h := mul_le_mul_of_nonneg_left hw1 (sub_nonneg.mpr hlu)
      linarith [mul_one (l.getD (⌈p⌉).toNat 0 - l.getD (⌊p⌋).toNat 0)]

lemma interpolateAt_bounds {l : List ℚ} (hs : l.Sorted (· ≤ ·)) {p : ℚ}
    (hp : 0 ≤ p) (hpn : p ≤ (l.length : ℚ) - 1) :
    l.getD 0 0 ≤ interpolateAt l p ∧ interpolateAt l p ≤ l.getD (l.length - 1) 0 := by
  obtain ⟨h1, h2⟩ := interpolateAt_between hs hp hpn
  have hfl0 : (0 : ℤ) ≤ ⌊p⌋ := Int.floor_nonneg.mpr hp
  have hce_le : ⌈p⌉ ≤ (l.length : ℤ) - 1 := by
    rw [Int.ceil_le]
    exact_mod_cast hpn
  have hflce : ⌊p⌋ ≤ ⌈p⌉ := Int.floor_le_ceil p
  have hlen : 1 ≤ l.length := by omega
  constructor
  · exact le_trans (sorted_getD_mono hs (Nat.zero_le _) (by omega)) h1
  · exact le_trans h2 (sorted_getD_mono hs (by omega) (by omega))

lemma interpolateAt_mono {l : List ℚ} (hs : l.Sorted (· ≤ ·)) {p q : ℚ}
    (hp : 0 ≤ p) (hpq : p ≤ q) (hqn : q ≤ (l.length : ℚ) - 1) :
    interpolateAt l p ≤ interpolateAt l q := by
  have hq0 : 0 ≤ q := le_trans hp hpq
  have hpn : p ≤ (l.length : ℚ) - 1 := le_trans hpq hqn
  by_cases hcell : ⌈p⌉ ≤ ⌊q⌋
  · have h1 := (interpolateAt_between hs hp hpn).2
    have h2 := (interpolateAt_between hs hq0 hqn).1
    have hfp0 : (0 : ℤ) ≤ ⌊p⌋ := Int.floor_nonneg.mpr hp
    have hflp : ⌊p⌋ ≤ ⌈p⌉ := Int.floor_le_ceil p
    have hflq : ⌊q⌋ ≤ ⌈q⌉ := Int.floor_le_ceil q
    have hcq : ⌈q⌉ ≤ (l.length : ℤ) - 1 := by
      rw [Int.ceil_le]
      push_cast
      exact hqn
    have h3 : l.getD (⌈p⌉).toNat 0 ≤ l.getD (⌊q⌋).toNat 0 :=
      sorted_getD_mono hs (by omega) (by omega)
    linarith
  · push_neg at hcell
    have hfp0 : (0 : ℤ) ≤ ⌊p⌋ := Int.floor_nonneg.mpr hp
    have hffq : ⌊p⌋ ≤ ⌊q⌋ := Int.floor_le_floor hpq
    have hcfp : ⌈p⌉ ≤ ⌊p⌋ + 1 := Int.ceil_le_floor_add_one p
    have hffpq : ⌊p⌋ = ⌊q⌋ := by omega
    have hcp_eq : ⌈p⌉ = ⌊p⌋ + 1 := by
      have := Int.floor_le_ceil p
      omega
    have hce_le : ⌈q⌉ ≤ (l.length : ℤ) - 1 := by
      rw [Int.ceil_le]
      push_cast
      exact hqn
    by_cases hqint : ⌈q⌉ = ⌊q⌋
    · have hq_eq : q = ((⌊q⌋ : ℤ) : ℚ) := by
        have h4 : q ≤ ((⌈q⌉ : ℤ) : ℚ) := Int.le_ceil q
        rw [hqint] at h4
        have h5 : ((⌊q⌋ : ℤ) : ℚ) ≤ q := Int.floor_le q
        linarith
      have hp_eq : p = q := by
        have h4 : ((⌊p⌋ : ℤ) : ℚ) ≤ p := Int.floor_le p
        rw [hffpq] at h4
        rw [hq_eq]
        exact le_antisymm (hq_eq ▸ hpq) (le_trans (le_of_eq hq_eq.symm) (hq_eq ▸ h4))
      rw [hp_eq]
    · have hcq_eq : ⌈q⌉ = ⌊q⌋ + 1 := by
        have := Int.ceil_le_floor_add_one q
        have := Int.floor_le_ceil q
        omega
      unfold interpolateAt
      rw [if_neg (by omega), if_neg (by omega)]
      rw [hffpq, hcp_eq, hcq_eq, hffpq]
      have hui_lt : ((⌊q⌋ + 1)).toNat < l.length := by omega
      have hlu : l.getD (⌊q⌋).toNat 0 ≤ l.getD ((⌊q⌋ + 1)).toNat 0 :=
        sorted_getD_mono hs (by omega) hui_lt
      have hmul := mul_le_mul_of_nonneg_left (sub_le_sub_right hpq ((((⌊q⌋).toNat : ℕ) : ℚ)))
        (sub_nonneg.mpr hlu)
      linarith

lemma percentile_bounds {l : List ℚ} (hs : l.Sorted (· ≤ ·)) (hne : l ≠ []) (r : ℚ) :
    l.getD 0 0 ≤ percentile l r ∧ percentile l r ≤ l.getD (l.length - 1) 0 := by
  unfold percentile
  rw [if_neg hne]
  by_cases h1 : l.length = 1
  · rw [if_pos h1, headD_eq_getD, h1]
    exact ⟨le_refl _, le_refl _⟩
  · rw [if_neg h1]
    have hlen : 2 ≤ l.length := by
      have := List.length_pos.mpr hne
      omega
    have hc0 : 0 ≤ min (max r 0) 1 := le_min (le_max_right r 0) zero_le_one
    have hc1 : min (max r 0) 1 ≤ 1 := min_le_right _ _
    have hn1 : (0 : ℚ) ≤ (l.length : ℚ) - 1 := by
      have : (2 : ℚ) ≤ (l.length : ℚ) := by exact_mod_cast hlen
      linarith
    exact interpolateAt_bounds hs (mul_nonneg hn1 hc0)
      (by calc ((l.length : ℚ) - 1) * min (max r 0) 1 ≤ ((l.length : ℚ) - 1) * 1 :=
            mul_le_mul_of_nonneg_left hc1 hn1
          _ = (l.length : ℚ) - 1 := mul_one _)

lemma percentile_mono {l : List ℚ} (hs : l.Sorted (· ≤ ·)) {r₁ r₂ : ℚ} (h : r₁ ≤ r₂) :
    percentile l r₁ ≤ percentile l r₂ := by
  unfold percentile
  by_cases hnil : l = []
  · rw [if_pos hnil, if_pos hnil]
  · rw [if_neg hnil, if_neg hnil]
    by_cases h1 : l.length = 1
    · rw [if_pos h1, if_pos h1]
    · rw [if_neg h1, if_neg h1]
      have hlen : 2 ≤ l.length := by
        have := List.length_pos.mpr hnil
        omega
      have hn1 : (0 : ℚ) ≤ (l.length : ℚ) - 1 := by
        have : (2 : ℚ) ≤ (l.length : ℚ) := by exact_mod_cast hlen
        linarith
      have hc0 : 0 ≤ min (max r₁ 0) 1 := le_min (le_max_right r₁ 0) zero_le_one
      have hcc : min (max r₁ 0) 1 ≤ min (max r₂ 0) 1 :=
        min_le_min (max_le_max h (le_refl 0)) (le_refl 1)
      have hc1 : min (max r₂ 0) 1 ≤ 1 := min_le_right _ _
      apply interpolateAt_mono hs (mul_nonneg hn1 hc0)
        (mul_le_mul_of_nonneg_left hcc hn1)
      calc ((l.length : ℚ) - 1) * min (max r₂ 0) 1 ≤ ((l.length : ℚ) - 1) * 1 :=
            mul_le_mul_of_nonneg_left hc1 hn1
        _ = (l.length : ℚ) - 1 := mul_one _

/-! ## Clamping facts for the displayed box bounds -/

lemma clamped_min_le {om lc q₁ : ℚ} (hom : om ≤ q₁) :
    (if q₁ < max om lc then om else max om lc) ≤ q₁ := by
  by_cases h : q₁ < max om lc
  · rw [if_pos h]
    exact hom
  · rw [if_neg h]
    exact not_lt.mp h

lemma le_clamped_min {om lc q₁ : ℚ} : om ≤ (if q₁ < max om lc then om else max om lc) := by
  by_cases h : q₁ < max om lc
  · rw [if_pos h]
  · rw [if_neg h]
    exact le_max_left _ _

lemma clamped_max_ge {oM uc q₃ : ℚ} (hoM : q₃ ≤ oM) :
    q₃ ≤ (if min oM uc < q₃ then oM else min oM uc) := by
  by_cases h : min oM uc < q₃
  · rw [if_pos h]
    exact hoM
  · rw [if_neg h]
    exact not_lt.mp h

lemma clamped_max_le {oM uc q₃ : ℚ} : (if min oM uc < q₃ then oM else min oM uc) ≤ oM := by
  by_cases h : min oM uc < q₃
  · rw [if_pos h]
  · rw [if_neg h]
    exact min_le_left _ _

/-- C4: for every non-empty list of price samples the statistics bundle
returned by `compute_box_stats` satisfies the ordering chain
`rawMin ≤ min = whiskerLow ≤ q1 ≤ median ≤ q3 ≤ max = whiskerHigh ≤ rawMax`
(so the displayed bounds are never strictly inside `[q1, q3]`), and the
outliers are exactly the samples strictly below the displayed min or
strictly above the displayed max. -/
theorem compute_box_stats_invariants (values : List ℚ) (hne : values ≠ []) :
    ∃ s, compute_box_stats values = some s ∧
      s.min = s.whiskerLow ∧ s.max = s.whiskerHigh ∧
      s.rawMin ≤ s.min ∧ s.min ≤ s.q1 ∧ s.q1 ≤ s.median ∧ s.median ≤ s.q3 ∧
      s.q3 ≤ s.max ∧ s.max ≤ s.rawMax ∧
      (∀ v, v ∈ s.outliers ↔ v ∈ values ∧ (v < s.min ∨ s.max < v)) ∧
      s.outliers.Perm (values.filter (fun v => decide (v < s.min) || decide (s.max < v))) := by
  have hsorted : (List.insertionSort (· ≤ ·) values).Sorted (· ≤ ·) :=
    List.sorted_insertionSort _ _
  have hperm : (List.insertionSort (· ≤ ·) values).Perm values := List.perm_insertionSort _ _
  have honne : List.insertionSort (· ≤ ·) values ≠ [] := by
    intro h
    rw [h] at hperm
    exact hne hperm.symm.eq_nil
  have hb1 := percentile_bounds hsorted honne (1/4)
  have hb3 := percentile_bounds hsorted honne (3/4)
  have hm12 := percentile_mono hsorted (show (1:ℚ)/4 ≤ 1/2 by norm_num)
  have hm23 := percentile_mono hsorted (show (1:ℚ)/2 ≤ 3/4 by norm_num)
  have hhead := headD_eq_getD (List.insertionSort (· ≤ ·) values)
  have hlast := getLastD_eq_getD honne
  rw [compute_box_stats, if_neg hne]
  refine ⟨_, rfl, rfl, rfl, le_clamped_min, ?_, hm12, hm23, ?_, clamped_max_le, ?_, ?_⟩
  · exact clamped_min_le (by rw [hhead]; exact hb1.1)
  · exact clamped_max_ge (by rw [hlast]; exact hb3.2)
  · intro v
    simp only [List.mem_filter, Bool.or_eq_true, decide_eq_true_eq, hperm.mem_iff]
  · exact hperm.filter _

/-- Witness for C4 at the sample list `[5, 1, 9]`. -/
theorem compute_box_stats_invariants_witness :
    (([5, 1, 9] : List ℚ) ≠ []) ∧
      (∃ s, compute_box_stats [5, 1, 9] = some s ∧
        s.min = s.whiskerLow ∧ s.max = s.whiskerHigh ∧
        s.rawMin ≤ s.min ∧ s.min ≤ s.q1 ∧ s.q1 ≤ s.median ∧ s.median ≤ s.q3 ∧
        s.q3 ≤ s.max ∧ s.max ≤ s.rawMax ∧
        (∀ v, v ∈ s.outliers ↔ v ∈ ([5, 1, 9] : List ℚ) ∧ (v < s.min ∨ s.max < v)) ∧
        s.outliers.Perm (([5, 1, 9] : List ℚ).filter
          (fun v => decide (v < s.min) || decide (s.max < v)))) :=
  ⟨by simp, compute_box_stats_invariants [5, 1, 9] (by simp)⟩

/-! ## The spec's ten-sample box-plot example -/

lemma insertionSort_ten :
    List.insertionSort (· ≤ ·) ([1,2,3,4,5,6,7,8,9,10] : List ℚ) = [1,2,3,4,5,6,7,8,9,10] := by
  norm_num [List.insertionSort, List.orderedInsert]

lemma ceil_nine_div_four : ⌈(9:ℚ)/4⌉ = 3 := by
  rw [Int.ceil_eq_iff]
  norm_num

lemma ceil_nine_div_two : ⌈(9:ℚ)/2⌉ = 5 := by
  rw [Int.ceil_eq_iff]
  norm_num

lemma ceil_twentyseven_div_four : ⌈(27:ℚ)/4⌉ = 7 := by
  rw [Int.ceil_eq_iff]
  norm_num

lemma percentile_ten_q1 : percentile [1,2,3,4,5,6,7,8,9,10] (1/4) = 13/4 := by
  norm_num [percentile, interpolateAt, List.getD, ceil_nine_div_four, List.cons_ne_nil,
    (show Int.toNat 2 = 2 from rfl), (show Int.toNat 3 = 3 from rfl),
    List.getElem_cons_succ, List.getElem_cons_zero]

lemma percentile_ten_median : percentile [1,2,3,4,5,6,7,8,9,10] (1/2) = 11/2 := by
  norm_num [percentile, interpolateAt, List.getD, ceil_nine_div_two, List.cons_ne_nil,
    (show Int.toNat 4 = 4 from rfl), (show Int.toNat 5 = 5 from rfl),
    List.getElem_cons_succ, List.getElem_cons_zero]

lemma percentile_ten_q3 : percentile [1,2,3,4,5,6,7,8,9,10] (3/4) = 31/4 := by
  norm_num [percentile, interpolateAt, List.getD, ceil_twentyseven_div_four, List.cons_ne_nil,
    (show Int.toNat 6 = 6 from rfl), (show Int.toNat 7 = 7 from rfl),
    List.getElem_cons_succ, List.getElem_cons_zero]

/-- C5: for the sample list `[1, ..., 10]`, the box-plot computation gives
`q1 = 3.25`, `median = 5.5`, `q3 = 7.75` (linear interpolation between order
statistics), `IQR = 4.5`, and no outliers: the whisker candidates exceed the
data range, so the displayed minimum is `1` and the displayed maximum `10`. -/
theorem compute_box_stats_ten_example :
    percentile [1,2,3,4,5,6,7,8,9,10] (1/4) = 13/4 ∧
      percentile [1,2,3,4,5,6,7,8,9,10] (1/2) = 11/2 ∧
      percentile [1,2,3,4,5,6,7,8,9,10] (3/4) = 31/4 ∧
      compute_box_stats [1,2,3,4,5,6,7,8,9,10] =
        some { min := 1, q1 := 13/4, median := 11/2, q3 := 31/4, max := 10, whiskerLow := 1,
               whiskerHigh := 10, outliers := [], rawMin := 1, rawMax := 10, count := 10 } ∧
      (compute_box_stats [1,2,3,4,5,6,7,8,9,10]).map (fun s => s.q3 - s.q1) = some (9/2) := by
  have hbox : compute_box_stats [1,2,3,4,5,6,7,8,9,10] =
      some { min := 1, q1 := 13/4, median := 11/2, q3 := 31/4, max := 10, whiskerLow := 1,
             whiskerHigh := 10, outliers := [], rawMin := 1, rawMax := 10, count := (10 : ℕ) } := by
    norm_num [compute_box_stats, insertionSort_ten, percentile_ten_q1, percentile_ten_median,
      percentile_ten_q3, List.headD, List.getLast?, List.filter, List.cons_ne_nil,
      max_def, min_def]
  refine ⟨percentile_ten_q1, percentile_ten_median, percentile_ten_q3, hbox, ?_⟩
  rw [hbox]
  norm_num [Option.map]

/-! ## The top-commune ranking scenario (three communes, requested limit 2) -/

/-- C2 counterexample: with communes A(10), B(7), C(3) and requested
`limit = 2`, the ranking does **not** return `[A(1), B(2)]`: the limit is
floored to 3 (`max(3, min(limit, 20))`), so all three communes are
returned with ranks 1..3. -/
theorem top_communes_limit_two_counterexample :
    ((build_top_communes threeCommuneDb none none 2).items.map (fun p => (p.1.code, p.2))) =
      [("75001", 1), ("75002", 2), ("75003", 3)] ∧
    ((build_top_communes threeCommuneDb none none 2).items.map (fun p => (p.1.code, p.2))) ≠
      [("75001", 1), ("75002", 2)] :=
  ⟨by decide, by decide⟩

/-- C2 (amended): with communes A(10 sales), B(7), C(3) and requested
`limit = 2`, the effective limit is 3 and the ranking returns
`[A rank 1, B rank 2, C rank 3]`; when the selected commune is C the same
three entries are returned, with C carrying the selected mark and rank 3. -/
theorem top_communes_three_commune_example :
    (build_top_communes threeCommuneDb none none 2).limit = 3 ∧
    ((build_top_communes threeCommuneDb none none 2).items.map
      (fun p => (p.1.code, p.1.sales_count, p.2))) =
      [("75001", 10, 1), ("75002", 7, 2), ("75003", 3, 3)] ∧
    ((build_top_communes threeCommuneDb none (some "75003") 2).items.map
      (fun p => (p.1.code, p.1.sales_count, p.1.is_selected, p.2))) =
      [("75001", 10, false, 1), ("75002", 7, false, 2), ("75003", 3, true, 3)] := by
  refine ⟨by decide, by decide, ?_⟩
  simp only [build_top_communes, topCommuneItems, topCommuneQs, threeCommuneDb, blankRecord,
    groupCount, groupTotal, dedupFirst, dedupFirstAux, communeLookupGet, pyTruthyStr,
    normalize_commune_code, pyStrip, pyStripList, pyUpper, pyStartswith, startsWithList,
    pyZfillList, pyLstripZeros, isPySpace, List.insertionSort, List.orderedInsert, countGe,
    MAX_TOP_COMMUNES, List.replicate, List.filter, List.map, List.filterMap, List.find?,
    List.take, List.enum, List.enumFrom, List.contains, List.elem]
  norm_num
  decide

/-! ## First-appearance deduplication facts -/

lemma mem_dedupFirstAux {α} [DecidableEq α] {seen l : List α} {a : α} :
    a ∈ dedupFirstAux seen l ↔ a ∈ l ∧ a ∉ seen := by
  induction l generalizing seen with
  | nil => simp [dedupFirstAux]
  | cons b t ih =>
    unfold dedupFirstAux
    by_cases hb : b ∈ seen
    · rw [if_pos hb, ih]
      simp only [List.mem_cons]
      constructor
      · rintro ⟨h1, h2⟩
        exact ⟨Or.inr h1, h2⟩
      · rintro ⟨rfl | h1, h2⟩
        · exact absurd hb h2
        · exact ⟨h1, h2⟩
    · rw [if_neg hb]
      simp only [List.mem_cons, ih]
      constructor
      · rintro (rfl | ⟨h1, h2⟩)
        · exact ⟨Or.inl rfl, hb⟩
        · push_neg at h2
          exact ⟨Or.inr h1, h2.2⟩
      · rintro ⟨rfl | h1, h2⟩
        · exact Or.inl rfl
        · by_cases hab : a = b
          · exact Or.inl hab
          · right
            refine ⟨h1, ?_⟩
            push_neg
            exact ⟨hab, h2⟩

lemma nodup_dedupFirstAux {α} [DecidableEq α] (seen l : List α) :
    (dedupFirstAux seen l).Nodup := by
  induction l generalizing seen with
  | nil => simp [dedupFirstAux]
  | cons b t ih =>
    unfold dedupFirstAux
    by_cases hb : b ∈ seen
    · rw [if_pos hb]
      exact ih seen
    · rw [if_neg hb]
      rw [List.nodup_cons]
      refine ⟨?_, ih (b :: seen)⟩
      rw [mem_dedupFirstAux]
      rintro ⟨-, h2⟩
      exact h2 (List.mem_cons_self b seen)

lemma mem_dedupFirst {α} [DecidableEq α] {l : List α} {a : α} :
    a ∈ dedupFirst l ↔ a ∈ l := by
  unfold dedupFirst
  rw [mem_dedupFirstAux]
  simp

lemma nodup_dedupFirst {α} [DecidableEq α] (l : List α) : (dedupFirst l).Nodup :=
  nodup_dedupFirstAux [] l

/-! ## Time-series aggregation -/

/-- C7: the time series groups exactly the records with a non-null mutation
date by truncated month; it has one point per such month (keys are
duplicate-free and sorted ascending), each carrying the group's transaction
count and value sum (null values counting zero); and the spec's concrete
scenario: two records dated 2024-01-05 (100000) and 2024-01-20 (50000)
yield the single point `("2024-01-01", 2, 150000)`. -/
theorem build_time_series_spec :
    (∀ records : List CleanDVFRecord,
      ∃ ms : List (ℕ × ℕ),
        ms.Sorted monthLe ∧ ms.Nodup ∧
        (∀ m, m ∈ ms ↔ ∃ r ∈ records, r.date_mutation.map truncMonth = some m) ∧
        build_time_series records = ms.map (fun m =>
          { month := isoFirstOfMonth m,
            sales_count := (records.filter
              (fun r => decide (r.date_mutation.map truncMonth = some m))).length,
            total_value := ((records.filter
              (fun r => decide (r.date_mutation.map truncMonth = some m))).map
                (fun r => r.valeur_fonciere.getD 0)).sum })) ∧
    (build_time_series januaryDb).map (fun p => (p.month, p.sales_count, p.total_value)) =
      [("2024-01-01", 2, 150000)] := by
  constructor
  · intro records
    refine ⟨List.insertionSort monthLe (dedupFirst ((records.filter
      (fun r => r.date_mutation.isSome)).filterMap (fun r => r.date_mutation.map truncMonth))),
      List.sorted_insertionSort _ _, ?_, ?_, ?_⟩
    · exact ((List.perm_insertionSort _ _).nodup_iff).mpr (nodup_dedupFirst _)
    · intro m
      rw [(List.perm_insertionSort _ _).mem_iff, mem_dedupFirst, List.mem_filterMap]
      constructor
      · rintro ⟨r, hr, hm⟩
        exact ⟨r, (List.mem_filter.mp hr).1, hm⟩
      · rintro ⟨r, hr, hm⟩
        refine ⟨r, List.mem_filter.mpr ⟨hr, ?_⟩, hm⟩
        cases hd : r.date_mutation with
        | none => rw [hd] at hm; simp at hm
        | some d => simp [hd]
    · unfold build_time_series
      apply List.map_congr_left
      intro m hm
      have habs : (records.filter (fun r => r.date_mutation.isSome)).filter
          (fun r => decide (r.date_mutation.map truncMonth = some m)) =
          records.filter (fun r => decide (r.date_mutation.map truncMonth = some m)) := by
        rw [List.filter_filter]
        apply List.filter_congr
        intro r hr
        cases hd : r.date_mutation <;> simp [hd]
      rw [habs]
  · simp only [build_time_series, januaryDb, blankRecord, List.filter, List.filterMap,
      dedupFirst, dedupFirstAux, truncMonth, List.insertionSort, List.orderedInsert,
      isoFirstOfMonth, pad4, pad2, List.map, monthLe]
    norm_num
    exact ⟨by decide, by decide⟩

/-! ## Ranking invariants of the top-communes list -/

lemma enum_rank_map_fst {α} (l : List α) :
    ((l.enum.map (fun p => (p.2, p.1 + 1))).map Prod.fst) = l := by
  rw [List.map_map]
  have h : (Prod.fst ∘ fun p : ℕ × α => (p.2, p.1 + 1)) = Prod.snd := rfl
  rw [h, List.enum_map_snd]

lemma enum_rank_map_snd {α} (l : List α) :
    ((l.enum.map (fun p => (p.2, p.1 + 1))).map Prod.snd) = List.range' 1 l.length := by
  rw [List.map_map]
  have h1 : (Prod.snd ∘ fun p : ℕ × α => (p.2, p.1 + 1)) =
      ((fun i => i + 1) ∘ Prod.fst) := rfl
  rw [h1, ← List.map_map, List.enum_map_fst, List.range'_eq_map_range]
  apply List.map_congr_left
  intro i hi
  omega

lemma enum_rank_length {α} (l : List α) :
    (l.enum.map (fun p => (p.2, p.1 + 1))).length = l.length := by
  rw [List.length_map, List.enum_length]

lemma mem_rank_of_mem {α} {l : List α} {x : α} (hx : x ∈ l) :
    ∃ p ∈ l.enum.map (fun p => (p.2, p.1 + 1)), p.1 = x := by
  have hmap : x ∈ (l.enum.map (fun p => (p.2, p.1 + 1))).map Prod.fst := by
    rw [enum_rank_map_fst]
    exact hx
  obtain ⟨p, hp, hpx⟩ := List.mem_map.mp hmap
  exact ⟨p, hp, hpx⟩

/-- C3: for every database, scope, selected code and requested limit, the
top-communes output (i) contains an entry for the selected commune whenever
one appears among the grouped per-commune items, (ii) is sorted by
descending sales count, (iii) carries consecutive 1-based ranks, and (iv)
is never longer than the effective limit plus one. -/
theorem build_top_communes_invariants (db : Database)
    (department_code selected_commune_code : Option String) (limit : ℤ) :
    ((∃ it ∈ topCommuneItems db department_code selected_commune_code, it.is_selected = true) →
      ∃ p ∈ (build_top_communes db department_code selected_commune_code limit).items,
        p.1.is_selected = true) ∧
    ((build_top_communes db department_code selected_commune_code limit).items.map
      Prod.fst).Sorted countGe ∧
    ((build_top_communes db department_code selected_commune_code limit).items.map Prod.snd) =
      List.range' 1
        (build_top_communes db department_code selected_commune_code limit).items.length ∧
    (build_top_communes db department_code selected_commune_code limit).items.length ≤
      (max 3 (min limit MAX_TOP_COMMUNES)).toNat + 1 := by
  have hsorted : (List.insertionSort countGe
      (topCommuneItems db department_code selected_commune_code)).Sorted countGe :=
    List.sorted_insertionSort countGe _
  have hperm := List.perm_insertionSort countGe
    (topCommuneItems db department_code selected_commune_code)
  cases hfind : (List.insertionSort countGe
      (topCommuneItems db department_code selected_commune_code)).find?
      (fun e => e.is_selected) with
  | none =>
    have hres : (build_top_communes db department_code selected_commune_code limit).items =
        ((List.insertionSort countGe
          (topCommuneItems db department_code selected_commune_code)).take
            (max 3 (min limit MAX_TOP_COMMUNES)).toNat).enum.map (fun p => (p.2, p.1 + 1)) := by
      simp only [build_top_communes, hfind]
    refine ⟨?_, ?_, ?_, ?_⟩
    · rintro ⟨it, hit, hsel⟩
      have : ((List.insertionSort countGe
          (topCommuneItems db department_code selected_commune_code)).find?
          (fun e => e.is_selected)).isSome :=
        List.find?_isSome.mpr ⟨it, hperm.symm.mem_iff.mp hit, hsel⟩
      rw [hfind] at this
      simp at this
    · rw [hres, enum_rank_map_fst]
      exact hsorted.sublist (List.take_sublist _ _)
    · rw [hres, enum_rank_map_snd, enum_rank_length]
    · rw [hres, enum_rank_length]
      calc ((List.insertionSort countGe
          (topCommuneItems db department_code selected_commune_code)).take
            (max 3 (min limit MAX_TOP_COMMUNES)).toNat).length ≤
          (max 3 (min limit MAX_TOP_COMMUNES)).toNat := by
            rw [List.length_take]
            exact Nat.min_le_left _ _
        _ ≤ (max 3 (min limit MAX_TOP_COMMUNES)).toNat + 1 := Nat.le_succ _
  | some e =>
    have he_sel : e.is_selected = true := List.find?_some hfind
    by_cases hcont : ((List.insertionSort countGe
        (topCommuneItems db department_code selected_commune_code)).take
          (max 3 (min limit MAX_TOP_COMMUNES)).toNat).contains e
    · have hres : (build_top_communes db department_code selected_commune_code limit).items =
          ((List.insertionSort countGe
            (topCommuneItems db department_code selected_commune_code)).take
              (max 3 (min limit MAX_TOP_COMMUNES)).toNat).enum.map (fun p => (p.2, p.1 + 1)) := by
        simp only [build_top_communes, hfind]
        rw [if_pos hcont]
      refine ⟨?_, ?_, ?_, ?_⟩
      · intro _
        obtain ⟨p, hp, hpe⟩ := mem_rank_of_mem (List.elem_iff.mp hcont)
        rw [← hres] at hp
        exact ⟨p, hp, by rw [hpe]; exact he_sel⟩
      · rw [hres, enum_rank_map_fst]
        exact hsorted.sublist (List.take_sublist _ _)
      · rw [hres, enum_rank_map_snd, enum_rank_length]
      · rw [hres, enum_rank_length]
        calc _ ≤ (max 3 (min limit MAX_TOP_COMMUNES)).toNat := by
              rw [List.length_take]
              exact Nat.min_le_left _ _
          _ ≤ (max 3 (min limit MAX_TOP_COMMUNES)).toNat + 1 := Nat.le_succ _
    · have hres : (build_top_communes db department_code selected_commune_code limit).items =
          (List.insertionSort countGe
            (((List.insertionSort countGe
              (topCommuneItems db department_code selected_commune_code)).take
                (max 3 (min limit MAX_TOP_COMMUNES)).toNat) ++ [e])).enum.map
            (fun p => (p.2, p.1 + 1)) := by
        simp only [build_top_communes, hfind]
        rw [if_neg hcont]
      have hmem_e : e ∈ List.insertionSort countGe
          (((List.insertionSort countGe
            (topCommuneItems db department_code selected_commune_code)).take
              (max 3 (min limit MAX_TOP_COMMUNES)).toNat) ++ [e]) := by
        rw [(List.perm_insertionSort countGe _).mem_iff]
        exact List.mem_append_right _ (List.mem_singleton_self e)
      refine ⟨?_, ?_, ?_, ?_⟩
      · intro _
        obtain ⟨p, hp, hpe⟩ := mem_rank_of_mem hmem_e
        rw [← hres] at hp
        exact ⟨p, hp, by rw [hpe]; exact he_sel⟩
      · rw [hres, enum_rank_map_fst]
        exact List.sorted_insertionSort countGe _
      · rw [hres, enum_rank_map_snd, enum_rank_length]
      · rw [hres, enum_rank_length, (List.perm_insertionSort countGe _).length_eq,
          List.length_append, List.length_singleton]
        have : ((List.insertionSort countGe
            (topCommuneItems db department_code selected_commune_code)).take
              (max 3 (min limit MAX_TOP_COMMUNES)).toNat).length ≤
            (max 3 (min limit MAX_TOP_COMMUNES)).toNat := by
          rw [List.length_take]
          exact Nat.min_le_left _ _
        omega

/-! ## Idempotence of `strip`/`upper` -/

lemma char_toNat_ofNat_valid {n : ℕ} (h : n.isValidChar) : (Char.ofNat n).toNat = n := by
  unfold Char.ofNat
  rw [dif_pos h]
  rfl

lemma char_eq_of_toNat_eq {c d : Char} (h : c.toNat = d.toNat) : c = d :=
  Char.eq_of_val_eq (UInt32.toNat.inj h)

lemma toUpper_toNat (c : Char) :
    c.toUpper.toNat = if 97 ≤ c.toNat ∧ c.toNat ≤ 122 then c.toNat - 32 else c.toNat := by
  unfold Char.toUpper
  by_cases h : c.toNat ≥ 97 ∧ c.toNat ≤ 122
  · rw [if_pos h, if_pos ⟨h.1, h.2⟩, char_toNat_ofNat_valid (Or.inl (by omega))]
  · rw [if_neg h, if_neg (by omega)]

lemma toUpper_toUpper (c : Char) : c.toUpper.toUpper = c.toUpper := by
  apply char_eq_of_toNat_eq
  rw [toUpper_toNat, toUpper_toNat]
  split_ifs <;> omega

lemma isPySpace_iff (c : Char) :
    isPySpace c = true ↔ (c.toNat = 32 ∨ c.toNat = 9 ∨ c.toNat = 10 ∨ c.toNat = 13 ∨
      c.toNat = 11 ∨ c.toNat = 12) := by
  simp [isPySpace]
  tauto

lemma isPySpace_toUpper (c : Char) : isPySpace c.toUpper = isPySpace c := by
  rw [Bool.eq_iff_iff, isPySpace_iff, isPySpace_iff, toUpper_toNat]
  split_ifs with h <;> omega

lemma pyStripList_map_toUpper (l : List Char) :
    pyStripList (l.map Char.toUpper) = (pyStripList l).map Char.toUpper := by
  have hcong : (isPySpace ∘ Char.toUpper) = isPySpace := funext isPySpace_toUpper
  unfold pyStripList
  rw [List.dropWhile_map, hcong, ← List.map_reverse, List.dropWhile_map, hcong,
    ← List.map_reverse]

lemma dropWhile_rdropWhile_of_clean {p : Char → Bool} {X : List Char}
    (hX : X.dropWhile p = X) : (X.rdropWhile p).dropWhile p = X.rdropWhile p := by
  cases hrd : X.rdropWhile p with
  | nil => simp
  | cons a t =>
    have hpre : a :: t <+: X := hrd ▸ List.rdropWhile_prefix p X
    obtain ⟨s, hs⟩ := hpre
    have ha : ¬ p a = true := by
      intro hpa
      rw [← hs, List.cons_append, List.dropWhile_cons, if_pos hpa] at hX
      have hlen := congrArg List.length hX
      have hle := (List.dropWhile_sublist (l := t ++ s) p).length_le
      simp only [List.length_cons, List.length_append] at hlen hle
      omega
    rw [List.dropWhile_cons, if_neg ha]

lemma pyStripList_idem (l : List Char) : pyStripList (pyStripList l) = pyStripList l := by
  have hS : ∀ m : List Char, pyStripList m = (m.dropWhile isPySpace).rdropWhile isPySpace := by
    intro m
    rfl
  rw [hS, hS l, dropWhile_rdropWhile_of_clean (List.dropWhile_idempotent isPySpace l),
    List.rdropWhile_idempotent]

lemma map_toUpper_idem (l : List Char) :
    (l.map Char.toUpper).map Char.toUpper = l.map Char.toUpper := by
  rw [List.map_map]
  apply List.map_congr_left
  intro c _
  exact toUpper_toUpper c

/-- Trimming and upper-casing is idempotent: the re-normalisation performed
inside `split_commune_code` is the identity on an input that
`_resolve_selection` has already trimmed and upper-cased. -/
lemma pyNormalize_idem (s : String) :
    pyUpper (pyStrip (pyUpper (pyStrip s))) = pyUpper (pyStrip s) := by
  unfold pyUpper pyStrip
  congr 1
  simp only
  rw [pyStripList_map_toUpper, pyStripList_idem, map_toUpper_idem]

/-! ## Shape of `split_commune_code` on a non-empty input -/

lemma split_some_of_ne_nil {x : String} (h : (pyUpper (pyStrip x)).data ≠ []) :
    ∃ dp sfx : String, split_commune_code (some x) = (some dp, some sfx) ∧
      dp.data ≠ [] ∧ sfx.data ≠ [] := by
  unfold split_commune_code
  simp only [Option.getD_some]
  rw [if_neg h]
  refine ⟨_, _, rfl, ?_, lstripDefault_ne_nil _⟩
  obtain ⟨c0, rest, hdata⟩ : ∃ c0 rest, (pyUpper (pyStrip x)).data = c0 :: rest := by
    cases hc : (pyUpper (pyStrip x)).data with
    | nil => exact absurd hc h
    | cons c0 rest => exact ⟨c0, rest, rfl⟩
  split_ifs <;> simp [pyTake, hdata]

/-- The record filters applied by `_resolve_selection` at commune level:
for a non-empty trimmed code, the split department part is non-empty and
the suffix present, so the `records.none()` branch is unreachable and both
equality filters are applied. -/
lemma resolve_selection_commune_shape (db : Database) (dc cc : String)
    (h : (pyUpper (pyStrip cc)).data ≠ []) {dp sfx : String}
    (hsplit : split_commune_code (some (pyUpper (pyStrip cc))) = (some dp, some sfx))
    (hdp : dp.data ≠ []) :
    (resolve_selection db dc cc).level = "commune" ∧
    (resolve_selection db dc cc).commune =
      db.communes.find? (fun c => decide (c.code_commune = pyUpper (pyStrip cc))) ∧
    (resolve_selection db dc cc).top_scope_department_code = some dp ∧
    (resolve_selection db dc cc).records =
      (db.records.filter (fun r => decide (r.code_departement = dp))).filter
        (fun r => decide (r.code_commune = sfx)) := by
  have htruthy : pyTruthyStr (some dp) := by
    unfold pyTruthyStr
    simp only [Option.getD_some]
    intro hdp'
    exact hdp (by rw [hdp'])
  unfold resolve_selection
  rw [if_pos h]
  simp only [hsplit]
  refine ⟨trivial, trivial, ?_, ?_⟩
  · simp only [if_pos htruthy]
  · simp only [if_pos htruthy, Option.getD_some]

/-- Witness for C3 on the empty database at limit 10. -/
theorem build_top_communes_invariants_witness :
    ((∃ it ∈ topCommuneItems ⟨[], [], []⟩ none none, it.is_selected = true) →
      ∃ p ∈ (build_top_communes ⟨[], [], []⟩ none none 10).items, p.1.is_selected = true) ∧
    ((build_top_communes ⟨[], [], []⟩ none none 10).items.map Prod.fst).Sorted countGe ∧
    ((build_top_communes ⟨[], [], []⟩ none none 10).items.map Prod.snd) =
      List.range' 1 (build_top_communes ⟨[], [], []⟩ none none 10).items.length ∧
    (build_top_communes ⟨[], [], []⟩ none none 10).items.length ≤
      (max 3 (min 10 MAX_TOP_COMMUNES)).toNat + 1 :=
  build_top_communes_invariants ⟨[], [], []⟩ none none 10

/-- C9: for a commune-code input that is non-empty after trimming and
upper-casing, `split_commune_code` returns a non-empty department part and a
present (`some`) suffix, so the `records.none()` branch of
`_resolve_selection` (taken only when the suffix is `None`) is unreachable:
the selection reports level `"commune"` and its record set is the
department-equality filter followed by the commune-suffix-equality filter. -/
theorem resolve_selection_commune_filters (db : Database) (dc cc : String)
    (h : (pyUpper (pyStrip cc)).data ≠ []) :
    ∃ dp sfx : String,
      split_commune_code (some (pyUpper (pyStrip cc))) = (some dp, some sfx) ∧
      dp.data ≠ [] ∧ sfx.data ≠ [] ∧
      (resolve_selection db dc cc).level = "commune" ∧
      (resolve_selection db dc cc).records =
        (db.records.filter (fun r => decide (r.code_departement = dp))).filter
          (fun r => decide (r.code_commune = sfx)) := by
  have h' : (pyUpper (pyStrip (pyUpper (pyStrip cc)))).data ≠ [] := by
    rw [pyNormalize_idem]; exact h
  obtain ⟨dp, sfx, hsplit, hdp, hsfx⟩ := split_some_of_ne_nil h'
  obtain ⟨hlevel, _, _, hrec⟩ := resolve_selection_commune_shape db dc cc h hsplit hdp
  exact ⟨dp, sfx, hsplit, hdp, hsfx, hlevel, hrec⟩

/-- Witness for C9 at commune code `"75056"` on the empty database. -/
theorem resolve_selection_commune_filters_witness :
    (pyUpper (pyStrip "75056")).data ≠ [] ∧
    ∃ dp sfx : String,
      split_commune_code (some (pyUpper (pyStrip "75056"))) = (some dp, some sfx) ∧
      dp.data ≠ [] ∧ sfx.data ≠ [] ∧
      (resolve_selection (Database.mk [] [] []) "" "75056").level = "commune" ∧
      (resolve_selection (Database.mk [] [] []) "" "75056").records =
        ((Database.mk [] [] []).records.filter
          (fun r => decide (r.code_departement = dp))).filter
          (fun r => decide (r.code_commune = sfx)) :=
  ⟨by decide, resolve_selection_commune_filters (Database.mk [] [] []) "" "75056" (by decide)⟩

/-! ## Graceful degradation on unmatched codes (C8) -/

lemma topCommuneQs_nil (db : Database) (dp : String)
    (hnorec : ∀ r ∈ db.records, r.code_departement ≠ dp)
    (htruthy : pyTruthyStr (some dp)) :
    topCommuneQs db (some dp) = [] := by
  unfold topCommuneQs
  rw [if_pos htruthy]
  apply List.filter_eq_nil_iff.mpr
  intro r hr
  simp only [Option.getD_some, decide_eq_true_eq]
  exact hnorec r (List.mem_filter.mp hr).1

lemma topCommuneItems_nil (db : Database) (dp : String) (sel : Option String)
    (hqs : topCommuneQs db (some dp) = []) :
    topCommuneItems db (some dp) sel = [] := by
  unfold topCommuneItems
  rw [hqs]
  rfl

lemma build_top_communes_items_nil (db : Database) (dp : String) (sel : Option String)
    (lim : ℤ) (hdp : dp.data ≠ [])
    (hnorec : ∀ r ∈ db.records, r.code_departement ≠ dp) :
    (build_top_communes db (some dp) sel lim).items = [] := by
  have htruthy : pyTruthyStr (some dp) := by
    unfold pyTruthyStr
    simp only [Option.getD_some]
    intro hdp'
    exact hdp (by rw [hdp'])
  have hitems := topCommuneItems_nil db dp sel (topCommuneQs_nil db dp hnorec htruthy)
  unfold build_top_communes
  rw [hitems]
  simp [List.insertionSort, List.take_nil]

/-- C8: an unmatched commune code degrades gracefully instead of failing:
when no record matches the split department part and no commune matches the
normalised code, the selection resolves with a null commune and an empty
record set, and every aggregation of the assembled payload (time series,
price box plot, mutation stack, type totals, top communes) is empty. -/
theorem unmatched_code_degrades (db : Database) (dc cc : String) (dp sfx : String)
    (lim : ℤ)
    (h : (pyUpper (pyStrip cc)).data ≠ [])
    (hsplit : split_commune_code (some (pyUpper (pyStrip cc))) = (some dp, some sfx))
    (hdp : dp.data ≠ [])
    (hnorec : ∀ r ∈ db.records, r.code_departement ≠ dp)
    (hnocom : ∀ c ∈ db.communes, c.code_commune ≠ pyUpper (pyStrip cc)) :
    (resolve_selection db dc cc).commune = none ∧
    (resolve_selection db dc cc).records = [] ∧
    (build_chart_payload db dc cc lim).selection.level = "commune" ∧
    (build_chart_payload db dc cc lim).selection.commune = none ∧
    (build_chart_payload db dc cc lim).time_series = [] ∧
    (build_chart_payload db dc cc lim).price_boxplot.items = [] ∧
    (build_chart_payload db dc cc lim).mutation_stack.series = [] ∧
    (build_chart_payload db dc cc lim).type_totals = [] ∧
    (build_chart_payload db dc cc lim).top_communes.items = [] := by
  obtain ⟨hlevel, hcomm, htop, hrec⟩ := resolve_selection_commune_shape db dc cc h hsplit hdp
  have hcommnone : (resolve_selection db dc cc).commune = none := by
    rw [hcomm]
    apply List.find?_eq_none.mpr
    intro c hc
    simp only [decide_eq_true_eq]
    exact hnocom c hc
  have hrecnil : (resolve_selection db dc cc).records = [] := by
    rw [hrec]
    have hfil : db.records.filter (fun r => decide (r.code_departement = dp)) = [] := by
      apply List.filter_eq_nil_iff.mpr
      intro r hrm
      simp only [decide_eq_true_eq]
      exact hnorec r hrm
    rw [hfil]
    rfl
  refine ⟨hcommnone, hrecnil, ?_, ?_, ?_, ?_, ?_, ?_, ?_⟩
  · simp only [build_chart_payload]
    exact hlevel
  · simp only [build_chart_payload]
    rw [hcommnone]
    rfl
  · simp only [build_chart_payload]
    rw [hrecnil]
    rfl
  · simp only [build_chart_payload]
    rw [hrecnil]
    rfl
  · simp only [build_chart_payload]
    rw [hrecnil]
    rfl
  · simp only [build_chart_payload]
    rw [hrecnil]
    rfl
  · simp only [build_chart_payload]
    rw [htop]
    exact build_top_communes_items_nil db dp _ lim hdp hnorec

/-- Witness for C8 on the empty database with the unmatched code
`"ZZZZZ"`. -/
theorem unmatched_code_degrades_witness :
    ((pyUpper (pyStrip "ZZZZZ")).data ≠ [] ∧
      split_commune_code (some (pyUpper (pyStrip "ZZZZZ"))) = (some "ZZ", some "ZZZ") ∧
      ("ZZ" : String).data ≠ [] ∧
      (∀ r ∈ (Database.mk [] [] []).records, r.code_departement ≠ "ZZ") ∧
      (∀ c ∈ (Database.mk [] [] []).communes,
        c.code_commune ≠ pyUpper (pyStrip "ZZZZZ"))) ∧
    ((resolve_selection (Database.mk [] [] []) "" "ZZZZZ").commune = none ∧
      (resolve_selection (Database.mk [] [] []) "" "ZZZZZ").records = [] ∧
      (build_chart_payload (Database.mk [] [] []) "" "ZZZZZ" 10).selection.level = "commune" ∧
      (build_chart_payload (Database.mk [] [] []) "" "ZZZZZ" 10).selection.commune = none ∧
      (build_chart_payload (Database.mk [] [] []) "" "ZZZZZ" 10).time_series = [] ∧
      (build_chart_payload (Database.mk [] [] []) "" "ZZZZZ" 10).price_boxplot.items = [] ∧
      (build_chart_payload (Database.mk [] [] []) "" "ZZZZZ" 10).mutation_stack.series = [] ∧
      (build_chart_payload (Database.mk [] [] []) "" "ZZZZZ" 10).type_totals = [] ∧
      (build_chart_payload (Database.mk [] [] []) "" "ZZZZZ" 10).top_communes.items = []) :=
  ⟨⟨by decide, by decide, by decide, by simp, by simp⟩,
   unmatched_code_degrades (Database.mk [] [] []) "" "ZZZZZ" "ZZ" "ZZZ" 10
     (by decide) (by decide) (by decide) (by simp) (by simp)⟩

/-! ## Lookup in the insertion-ordered dict built by `dictSet` (C10) -/

lemma find?_fst_map_set (d : List (String × ℕ)) (k k' : String) (v : ℕ) :
    (d.map (fun p => if p.1 = k then (p.1, v) else p)).find?
        (fun p => decide (p.1 = k')) =
      (d.find? (fun p => decide (p.1 = k'))).map
        (fun p => if p.1 = k then (p.1, v) else p) := by
  rw [List.find?_map]
  have hpred : ((fun p : String × ℕ => decide (p.1 = k')) ∘
      fun p => if p.1 = k then (p.1, v) else p) =
        fun p : String × ℕ => decide (p.1 = k') := by
    funext p
    by_cases hpk : p.1 = k
    · simp [Function.comp, hpk]
    · simp [Function.comp, hpk]
  rw [hpred]

lemma listLookup_dictSet_self (d : List (String × ℕ)) (k : String) (v : ℕ) :
    listLookup (dictSet d k v) k = some v := by
  unfold dictSet listLookup
  by_cases hsome : (d.find? (fun p => decide (p.1 = k))).isSome
  · rw [if_pos hsome, find?_fst_map_set]
    obtain ⟨p, hp⟩ := Option.isSome_iff_exists.mp hsome
    have hpk : p.1 = k := by simpa using List.find?_some hp
    rw [hp]
    simp [hpk]
  · rw [if_neg hsome, List.find?_append]
    have hnone : d.find? (fun p => decide (p.1 = k)) = none :=
      Option.not_isSome_iff_eq_none.mp hsome
    rw [hnone]
    simp

lemma listLookup_dictSet_other (d : List (String × ℕ)) (k k' : String) (v : ℕ)
    (h : k' ≠ k) :
    listLookup (dictSet d k v) k' = listLookup d k' := by
  unfold dictSet listLookup
  by_cases hsome : (d.find? (fun p => decide (p.1 = k))).isSome
  · rw [if_pos hsome, find?_fst_map_set]
    cases hfd : d.find? (fun p => decide (p.1 = k')) with
    | none => simp
    | some p =>
      have hpk' : p.1 = k' := by simpa using List.find?_some hfd
      simp [hpk', h]
  · rw [if_neg hsome, List.find?_append]
    cases hfd : d.find? (fun p => decide (p.1 = k')) with
    | none => simp [Ne.symm h]
    | some p => simp

lemma listLookup_foldl_dictSet (l d : List (String × ℕ)) (lbl : String) :
    listLookup (l.foldl (fun acc p => dictSet acc (clean_type_label (some p.1)) p.2) d)
        lbl =
      match l.reverse.find? (fun p => decide (clean_type_label (some p.1) = lbl)) with
      | some p => some p.2
      | none => listLookup d lbl := by
  induction l generalizing d with
  | nil => simp
  | cons a t ih =>
    rw [List.foldl_cons, ih, List.reverse_cons, List.find?_append]
    cases hft : t.reverse.find? (fun p => decide (clean_type_label (some p.1) = lbl)) with
    | some p => simp
    | none =>
      simp only [Option.none_orElse]
      by_cases hal : clean_type_label (some a.1) = lbl
      · rw [List.find?_cons_of_pos _ (by simp [hal])]
        rw [← hal]
        exact listLookup_dictSet_self d (clean_type_label (some a.1)) a.2
      · rw [List.find?_cons_of_neg _ (by simp [hal])]
        exact listLookup_dictSet_other d (clean_type_label (some a.1)) lbl a.2
          (fun hh => hal hh.symm)

/-- The value stored under a display label is the count written last: the
second component of the last entry of the top-key-restricted `type_totals`
whose cleaned label is the key. -/
lemma displayTypeTotals_lookup (tt : List (String × ℕ)) (tk : List String)
    (lbl : String) :
    listLookup (displayTypeTotals tt tk) lbl =
      ((tt.filter (fun p => tk.contains p.1)).reverse.find?
        (fun p => decide (clean_type_label (some p.1) = lbl))).map Prod.snd := by
  unfold displayTypeTotals
  rw [listLookup_foldl_dictSet]
  cases hf : (tt.filter (fun p => tk.contains p.1)).reverse.find?
      (fun p => decide (clean_type_label (some p.1) = lbl)) with
  | some p => rfl
  | none => simp [listLookup]

/-- C10: `type_totals` keys the top raw labels by display form, and distinct
raw labels with the same display form collapse to one entry holding only the
last-written count, so the mapping can be shorter than the top label list.
In general the value under a display label is the count of the last
restricted `type_totals` entry cleaning to it; on the mixed-case database,
`maison` (3 sales) and `MAISON` (2 sales) are both top keys with display
form `Maison`, and the assembled mapping is the single entry
`("Maison", 2)`. -/
theorem type_totals_display_collapse :
    (∀ tt tk lbl, listLookup (displayTypeTotals tt tk) lbl =
      ((tt.filter (fun p => tk.contains p.1)).reverse.find?
        (fun p => decide (clean_type_label (some p.1) = lbl))).map Prod.snd) ∧
    (build_type_metrics mixedCaseTypeDb.records).1 = ["maison", "MAISON"] ∧
    clean_type_label (some "maison") = clean_type_label (some "MAISON") ∧
    (build_chart_payload mixedCaseTypeDb "" "" 10).type_totals = [("Maison", 2)] ∧
    (build_chart_payload mixedCaseTypeDb "" "" 10).type_totals.length <
      (build_type_metrics mixedCaseTypeDb.records).1.length :=
  ⟨displayTypeTotals_lookup, by decide, by decide, by decide, by decide⟩

end DVF
